import Mathlib

/-!
# Tic-tac-toe match engine (`game-server/match.go`)

A shallow embedding of the authoritative match handler: the match state, the
lifecycle calls `MatchInit`, `MatchJoin`, `MatchLeave` and the per-tick
`MatchLoop`, together with the outbound effects they produce.

Conventions of the embedding.

* Go maps keyed by strings are total functions into `Option`.
* The fixed array `[9]string` is a function on `Fin 9`.
* Every `dispatcher.BroadcastMessage` call and every
  `nk.LeaderboardRecordWrite` call is recorded, in program order, in a list of
  `Event`s returned next to the new state.
* `time.Now().Unix()` is an argument `now` of the call that reads the clock.
* The `int64` clock fields hold Unix seconds and the 30 second limit, far from
  the range limits, so their arithmetic is that of `Int`.
-/

namespace GameServer

/-! ## Data model -/

/-- Go `type GameMode string`: any string can be converted to a mode. -/
abbrev GameMode := String

/-- Constant `GameModeClassic`. -/
def GameModeClassic : GameMode := "classic"

/-- Constant `GameModeTimed`. -/
def GameModeTimed : GameMode := "timed"

/-- The part of `runtime.Presence` the handler reads: `GetUserId` and
`GetUsername`. -/
structure Presence where
  userId : String
  username : String
deriving DecidableEq, Repr

/-- Go `[9]string`. -/
abbrev Board := Fin 9 → String

/-- Go `map[string]V`: an absent key is `none`. -/
abbrev StrMap (V : Type) := String → Option V

/-- Struct `MatchState`. -/
structure MatchState where
  Players : List Presence
  PlayerActions : StrMap String
  TicTacToe : Board
  PlayerSymbols : StrMap String
  CurrentTurn : String
  GameStarted : Bool
  GameEnded : Bool
  Winner : String
  GameMode : GameServer.GameMode
  TurnTimeLimit : Int
  CurrentTurnStart : Int
  TimeRemaining : Int

/-- Struct `Match`, without the two protojson option blocks, which the handler
never reads. -/
structure Match where
  matchLabel : String
  tickRate : Int
  gameMode : GameMode

/-- Function `NewMatch`. -/
def NewMatch : Match :=
  { matchLabel := "lobby", tickRate := 10, gameMode := GameModeClassic }

/-- Function `NewMatchWithMode`. -/
def NewMatchWithMode (mode : GameMode) : Match :=
  { NewMatch with gameMode := mode, matchLabel := "lobby_" ++ mode }

/-- Function `newMatchState`. -/
def newMatchState (gameMode : GameMode) : MatchState :=
  let state : MatchState :=
    { Players := []
      PlayerActions := fun _ => none
      TicTacToe := fun _ => ""
      PlayerSymbols := fun _ => none
      CurrentTurn := ""
      GameStarted := false
      GameEnded := false
      Winner := ""
      GameMode := gameMode
      TurnTimeLimit := 0
      CurrentTurnStart := 0
      TimeRemaining := 0 }
  if gameMode = GameModeTimed then
    { state with TurnTimeLimit := 30, CurrentTurnStart := 0, TimeRemaining := 30 }
  else state

/-- Function `getMatchState`: `none` stands for a `nil` state or a value that
is not a `*MatchState`. -/
def getMatchState (state : Option MatchState) : MatchState :=
  match state with
  | none => newMatchState GameModeClassic
  | some matchState => matchState

/-- Variable `gameWin`: the eight winning triples. -/
def gameWin : List (Fin 9 × Fin 9 × Fin 9) :=
  [ (0, 1, 2), (3, 4, 5), (6, 7, 8),
    (0, 3, 6), (1, 4, 7), (2, 5, 8),
    (0, 4, 8), (2, 4, 6) ]

/-! ## Outbound effects -/

/-- The arguments of one `nk.LeaderboardRecordWrite` call; `timeRemaining` is
the optional `"TimeRemaining"` metadata key. -/
structure LeaderboardRecord where
  leaderboardId : String
  ownerId : String
  username : String
  score : Int
  subscore : Int
  symbol : String
  mode : GameMode
  timeRemaining : Option Int

/-- One outbound effect. The constructors `welcome` to `timeUpdate` are the
broadcasts with opcodes 1 to 9 and carry the payload fields;
`leaderboardWrite` is a call of the ranking store. A private message names its
receiver; `none` as receiver of `error` is the `nil` presence the loop holds
when the sender is not in the roster. -/
inductive Event where
  | welcome (receiver : Presence) (message : String) (playerCount : Nat)
      (gameMode : GameMode) (turnTimeLimit : Option Int)
  | playerJoined (receivers : List Presence) (userId username : String) (totalPlayers : Nat)
      (currentTurn : String) (boardState : Board) (symbol : String)
      (gameMode : GameMode) (turnTimeLimit timeRemaining : Option Int)
  | playerLeft (userId : String)
  | update (boardState : Board) (currentTurn : String) (gameMode : GameMode)
      (timeRemaining : Option Int)
  | win (message : String) (winnerId : String) (boardState : Board) (gameMode : GameMode)
  | error (receiver : Option Presence) (message : String)
  | draw (message : String) (boardState : Board) (gameMode : GameMode)
  | timeout (message : String) (winnerId : String) (boardState : Board) (gameMode : GameMode)
  | timeUpdate (timeRemaining : Int) (currentTurn : String)
  | leaderboardWrite (record : LeaderboardRecord)

/-- The opcode passed to `BroadcastMessage`; 0 for the ranking store call. -/
def Event.opcode : Event → Nat
  | .welcome .. => 1
  | .playerJoined .. => 2
  | .playerLeft .. => 3
  | .update .. => 4
  | .win .. => 5
  | .error .. => 6
  | .draw .. => 7
  | .timeout .. => 8
  | .timeUpdate .. => 9
  | .leaderboardWrite .. => 0

/-- Function `playerError`. -/
def playerError (presence : Option Presence) (message : String) : Event :=
  Event.error presence message

/-- Function `writeToLeaderboard`: the record handed to the ranking store. -/
def writeToLeaderboard (winnerId symbol : String) (matchState : MatchState) :
    LeaderboardRecord :=
  let score : Int := if matchState.GameMode = GameModeTimed then 2 else 1
  let username : String :=
    match matchState.Players.find? (fun p => decide (p.userId = winnerId)) with
    | some p => p.username
    | none => ""
  { leaderboardId := "TicTacToeLeaderboard"
    ownerId := winnerId
    username := username
    score := score
    subscore := 0
    symbol := symbol
    mode := matchState.GameMode
    timeRemaining :=
      if matchState.GameMode = GameModeTimed then some matchState.TimeRemaining else none }

/-! ## MatchInit -/

/-- A value of the creation parameter map (`interface{}`): a string, or
anything else. -/
inductive ParamValue where
  | str (s : String)
  | other

/-- Method `MatchInit`: initial state, tick rate and label. -/
def MatchInit (m : Match) (params : StrMap ParamValue) : MatchState × Int × String :=
  let gameMode : GameMode :=
    match params "game_mode" with
    | some (ParamValue.str modeStr) => modeStr
    | _ => m.gameMode
  (newMatchState gameMode, m.tickRate, m.matchLabel)

/-! ## MatchJoin -/

/-- First loop of `MatchJoin`. The inner scan over the roster only logs: its
`continue` resumes the inner loop, so every presence is appended. -/
def appendPresences (players : List Presence) : List Presence → List Presence
  | [] => players
  | presence :: rest => appendPresences (players ++ [presence]) rest

/-- Slice `symbols` of `MatchJoin`. -/
def symbols : List String := ["X", "O"]

/-- The element `symbols[i%2]`. -/
def symbolAt (i : Nat) : String :=
  symbols.get ⟨i % 2, Nat.mod_lt i (Nat.succ_pos 1)⟩

/-- Body of the second loop of `MatchJoin` for roster index `i`. -/
def assignSymbol (now : Int) (i : Nat) (player : Presence) (st : MatchState) : MatchState :=
  if (st.PlayerSymbols player.userId).isSome then st
  else
    let st1 : MatchState :=
      { st with PlayerSymbols :=
          Function.update st.PlayerSymbols player.userId (some (symbolAt i)) }
    if st1.CurrentTurn = "" then
      let st2 : MatchState := { st1 with CurrentTurn := player.userId }
      if st2.GameMode = GameModeTimed then
        { st2 with CurrentTurnStart := now, TimeRemaining := st2.TurnTimeLimit }
      else st2
    else st1

/-- Second loop of `MatchJoin`, over the roster from index `i` on. -/
def assignSymbols (now : Int) : Nat → List Presence → MatchState → MatchState
  | _, [], st => st
  | i, player :: rest, st => assignSymbols now (i + 1) rest (assignSymbol now i player st)

/-- Third loop of `MatchJoin`: a private welcome and a roster-wide
announcement for each joining presence. -/
def joinEvents (st : MatchState) (presences : List Presence) : List Event :=
  presences.flatMap fun presence =>
    [ Event.welcome presence ("Welcome to " ++ st.GameMode ++ " mode!") st.Players.length
        st.GameMode (if st.GameMode = GameModeTimed then some st.TurnTimeLimit else none),
      Event.playerJoined st.Players presence.userId presence.username st.Players.length
        st.CurrentTurn st.TicTacToe ((st.PlayerSymbols presence.userId).getD "")
        st.GameMode
        (if st.GameMode = GameModeTimed then some st.TurnTimeLimit else none)
        (if st.GameMode = GameModeTimed then some st.TimeRemaining else none) ]

/-- Method `MatchJoin`. -/
def MatchJoin (now : Int) (state : Option MatchState) (presences : List Presence) :
    MatchState × List Event :=
  let matchState := getMatchState state
  let st1 : MatchState :=
    { matchState with Players := appendPresences matchState.Players presences }
  let st2 := assignSymbols now 0 st1.Players st1
  (st2, joinEvents st2 presences)

/-! ## MatchLeave -/

/-- Inner loop of `MatchLeave`: drop the first roster entry with the id. -/
def removePlayer (userId : String) : List Presence → List Presence
  | [] => []
  | p :: rest => if p.userId = userId then rest else p :: removePlayer userId rest

/-- Outer loop of `MatchLeave`. -/
def leaveLoop : MatchState → List Presence → MatchState × List Event
  | st, [] => (st, [])
  | st, presence :: rest =>
    let st1 : MatchState := { st with Players := removePlayer presence.userId st.Players }
    let r := leaveLoop st1 rest
    (r.1, Event.playerLeft presence.userId :: r.2)

/-- Method `MatchLeave`. -/
def MatchLeave (state : Option MatchState) (presences : List Presence) :
    MatchState × List Event :=
  leaveLoop (getMatchState state) presences

/-! ## MatchLoop -/

/-- The decoded move `struct { Row int; Col int }`. -/
structure Action where
  Row : Int
  Col : Int
deriving DecidableEq, Repr

/-- One `runtime.MatchData`: the sender id, the raw payload, and the outcome of
`json.Unmarshal` on the payload (`none` when it returns an error). -/
structure MatchData where
  userId : String
  data : String
  action : Option Action

/-- Outcome of one step of `MatchLoop`: the state, the effects, and whether the
step executed `return matchState`. -/
structure Step where
  state : MatchState
  events : List Event
  returned : Bool

/-- The presence lookup at the top of the message loop (`nil` is `none`). -/
def findPresence (players : List Presence) (userId : String) : Option Presence :=
  players.find? (fun p => decide (p.userId = userId))

/-- The win loop over a list of triples: true at the first triple whose three
cells hold `symbol`. -/
def checkWin (lines : List (Fin 9 × Fin 9 × Fin 9)) (board : Board) (symbol : String) : Bool :=
  match lines with
  | [] => false
  | win :: rest =>
    if board win.1 = symbol ∧ board win.2.1 = symbol ∧ board win.2.2 = symbol then true
    else checkWin rest board symbol

/-- The draw loop: no cell is the empty string. -/
def isDraw (board : Board) : Bool :=
  (List.finRange 9).all fun i => decide (board i ≠ "")

/-- The index `action.Row*3+action.Col`, in range once the bounds check has
passed. -/
def cellIndex (action : Action)
    (h : ¬ (action.Row < 0 ∨ action.Row > 2 ∨ action.Col < 0 ∨ action.Col > 2)) : Fin 9 :=
  ⟨(action.Row * 3 + action.Col).toNat, by omega⟩

/-- The turn switch at the end of an accepted move. -/
def switchTurn (now : Int) (senderId : String) (st : MatchState) : MatchState :=
  if st.Players.length = 2 then
    let st1 : MatchState :=
      match st.Players.find? (fun p => decide (p.userId ≠ senderId)) with
      | some p => { st with CurrentTurn := p.userId }
      | none => st
    if st1.GameMode = GameModeTimed then
      { st1 with CurrentTurnStart := now, TimeRemaining := st1.TurnTimeLimit }
    else st1
  else st

/-- Body of the message loop of `MatchLoop`, with the list of triples the win
loop walks as an argument. -/
def processMessageWith (lines : List (Fin 9 × Fin 9 × Fin 9)) (now : Int)
    (st : MatchState) (message : MatchData) : Step :=
  let presence := findPresence st.Players message.userId
  let st0 : MatchState :=
    { st with PlayerActions :=
        Function.update st.PlayerActions message.userId (some message.data) }
  match message.action with
  | none => ⟨st0, [playerError presence "Invalid action data"], false⟩
  | some action =>
    if h : action.Row < 0 ∨ action.Row > 2 ∨ action.Col < 0 ∨ action.Col > 2 then
      ⟨st0, [playerError presence "Out of bounds move"], false⟩
    else if st0.TicTacToe (cellIndex action h) ≠ "" then
      ⟨st0, [playerError presence "Cell already occupied"], false⟩
    else if st0.CurrentTurn ≠ "" ∧ st0.CurrentTurn ≠ message.userId then
      ⟨st0, [playerError presence "Not your turn"], false⟩
    else
      let symbol := (st0.PlayerSymbols message.userId).getD ""
      let st1 : MatchState :=
        { st0 with TicTacToe := Function.update st0.TicTacToe (cellIndex action h) symbol }
      if checkWin lines st1.TicTacToe symbol then
        let st2 : MatchState := { st1 with GameEnded := true, Winner := message.userId }
        ⟨st2,
          [ Event.win ("We have a winner! " ++ symbol ++ " wins in " ++ st1.GameMode ++ " mode!")
              message.userId st1.TicTacToe st1.GameMode,
            Event.leaderboardWrite (writeToLeaderboard message.userId symbol st2) ],
          true⟩
      else if isDraw st1.TicTacToe then
        ⟨{ st1 with GameEnded := true },
          [ Event.draw ("It's a draw in " ++ st1.GameMode ++ " mode!") st1.TicTacToe
              st1.GameMode ],
          true⟩
      else
        let st2 := switchTurn now message.userId st1
        ⟨st2,
          [ Event.update st2.TicTacToe st2.CurrentTurn st2.GameMode
              (if st2.GameMode = GameModeTimed then some st2.TimeRemaining else none) ],
          false⟩

/-- Body of the message loop of `MatchLoop`. -/
def processMessage (now : Int) (st : MatchState) (message : MatchData) : Step :=
  processMessageWith gameWin now st message

/-- The message loop of `MatchLoop` and the clearing of `PlayerActions` that
follows it; a step that returned ends the call at once. -/
def processMessages (now : Int) : MatchState → List MatchData → MatchState × List Event
  | st, [] => ({ st with PlayerActions := fun _ => none }, [])
  | st, message :: rest =>
    let r := processMessage now st message
    if r.returned then (r.state, r.events)
    else
      let r2 := processMessages now r.state rest
      (r2.1, r.events ++ r2.2)

/-- The search for the timeout winner: the first roster member whose id is not
the turn-holder, with that member's symbol; two empty strings when there is
none. -/
def timeoutWinner (st : MatchState) : String × String :=
  match st.Players.find? (fun p => decide (p.userId ≠ st.CurrentTurn)) with
  | some p => (p.userId, (st.PlayerSymbols p.userId).getD "")
  | none => ("", "")

/-- The periodic time broadcast of the timer block. -/
def timeBroadcast (tick : Int) (st : MatchState) : List Event :=
  if tick % 10 = 0 then [Event.timeUpdate st.TimeRemaining st.CurrentTurn] else []

/-- The timer block at the top of `MatchLoop`. -/
def timerStep (now tick : Int) (st : MatchState) : Step :=
  if st.GameMode = GameModeTimed ∧ st.CurrentTurnStart > 0 ∧ st.GameEnded = false then
    let elapsed := now - st.CurrentTurnStart
    let st1 : MatchState := { st with TimeRemaining := st.TurnTimeLimit - elapsed }
    if st1.TimeRemaining ≤ 0 ∧ (timeoutWinner st1).1 ≠ "" then
      let winner := (timeoutWinner st1).1
      let winnerSymbol := (timeoutWinner st1).2
      let st2 : MatchState := { st1 with GameEnded := true, Winner := winner }
      ⟨st2,
        [ Event.timeout ("Time's up! " ++ winnerSymbol ++ " wins by timeout!") winner
            st1.TicTacToe st1.GameMode,
          Event.leaderboardWrite (writeToLeaderboard winner winnerSymbol st2) ],
        true⟩
    else ⟨st1, timeBroadcast tick st1, false⟩
  else ⟨st, [], false⟩

/-- Method `MatchLoop`. -/
def MatchLoop (now tick : Int) (state : Option MatchState) (messages : List MatchData) :
    MatchState × List Event :=
  let matchState := getMatchState state
  let t := timerStep now tick matchState
  if t.returned then (t.state, t.events)
  else
    let r := processMessages now t.state messages
    (r.1, t.events ++ r.2)

/-! ## Runs of lifecycle calls -/

/-- One host call after `MatchInit`. -/
inductive Op where
  | join (now : Int) (presences : List Presence)
  | leave (presences : List Presence)
  | loop (now tick : Int) (messages : List MatchData)

/-- The state after one host call. -/
def applyOp (st : MatchState) : Op → MatchState
  | .join now presences => (MatchJoin now (some st) presences).1
  | .leave presences => (MatchLeave (some st) presences).1
  | .loop now tick messages => (MatchLoop now tick (some st) messages).1

/-- The state after a sequence of host calls. -/
def runOps (st : MatchState) (ops : List Op) : MatchState :=
  ops.foldl applyOp st

/-- The effects of one host call. -/
def opEvents (st : MatchState) : Op → List Event
  | .join now presences => (MatchJoin now (some st) presences).2
  | .leave presences => (MatchLeave (some st) presences).2
  | .loop now tick messages => (MatchLoop now tick (some st) messages).2

/-- A state the host can hold: the result of `MatchInit` followed by any
sequence of join, leave and loop calls. -/
def Reachable (st : MatchState) : Prop :=
  ∃ (m : Match) (params : StrMap ParamValue) (ops : List Op),
    st = runOps (MatchInit m params).1 ops

/-! ## Predicates used in the statements -/

/-- A move message passes the validation of the message loop: it decodes to
`action`, row and column are in `0..2`, the target cell is empty, and
`CurrentTurn` is empty or the sender. -/
def Accepted (st : MatchState) (message : MatchData) (action : Action)
    (h : ¬ (action.Row < 0 ∨ action.Row > 2 ∨ action.Col < 0 ∨ action.Col > 2)) : Prop :=
  message.action = some action ∧ st.TicTacToe (cellIndex action h) = "" ∧
    (st.CurrentTurn = "" ∨ st.CurrentTurn = message.userId)

instance (st : MatchState) (message : MatchData) (action : Action)
    (h : ¬ (action.Row < 0 ∨ action.Row > 2 ∨ action.Col < 0 ∨ action.Col > 2)) :
    Decidable (Accepted st message action h) := by
  unfold Accepted
  infer_instance

/-- The symbol the loop writes for a sender: `PlayerSymbols[id]`, the empty
string for an absent key. -/
def symbolOf (st : MatchState) (userId : String) : String :=
  (st.PlayerSymbols userId).getD ""

/-- The board after the sender's symbol is written into the target cell. -/
def boardAfter (st : MatchState) (message : MatchData) (action : Action)
    (h : ¬ (action.Row < 0 ∨ action.Row > 2 ∨ action.Col < 0 ∨ action.Col > 2)) : Board :=
  Function.update st.TicTacToe (cellIndex action h) (symbolOf st message.userId)

/-- One of the eight lines of the grid holds `symbol` in all three cells. -/
def EightLines (board : Board) (symbol : String) : Prop :=
  (board 0 = symbol ∧ board 1 = symbol ∧ board 2 = symbol) ∨
  (board 3 = symbol ∧ board 4 = symbol ∧ board 5 = symbol) ∨
  (board 6 = symbol ∧ board 7 = symbol ∧ board 8 = symbol) ∨
  (board 0 = symbol ∧ board 3 = symbol ∧ board 6 = symbol) ∨
  (board 1 = symbol ∧ board 4 = symbol ∧ board 7 = symbol) ∨
  (board 2 = symbol ∧ board 5 = symbol ∧ board 8 = symbol) ∨
  (board 0 = symbol ∧ board 4 = symbol ∧ board 8 = symbol) ∨
  (board 2 = symbol ∧ board 4 = symbol ∧ board 6 = symbol)

/-- None of the eight lines of the grid holds three equal entries. -/
def NoLine (board : Board) : Prop :=
  ∀ w ∈ gameWin, ¬ (board w.1 = board w.2.1 ∧ board w.2.1 = board w.2.2)

instance (board : Board) : Decidable (NoLine board) := by
  unfold NoLine
  infer_instance

/-- A step took the win branch for `sender` on `board`: it returned, the match
is ended with `sender` as winner, and a win-result naming `sender` and showing
`board` was broadcast. -/
def WinBranch (r : Step) (sender : String) (board : Board) : Prop :=
  r.returned = true ∧ r.state.GameEnded = true ∧ r.state.Winner = sender ∧
    r.state.TicTacToe = board ∧
    ∃ message mode, Event.win message sender board mode ∈ r.events

/-- Two states agree on every field but the per-tick buffer `PlayerActions`. -/
def SameGame (a b : MatchState) : Prop :=
  a.Players = b.Players ∧ a.TicTacToe = b.TicTacToe ∧ a.PlayerSymbols = b.PlayerSymbols ∧
    a.CurrentTurn = b.CurrentTurn ∧ a.GameStarted = b.GameStarted ∧
    a.GameEnded = b.GameEnded ∧ a.Winner = b.Winner ∧ a.GameMode = b.GameMode ∧
    a.TurnTimeLimit = b.TurnTimeLimit ∧ a.CurrentTurnStart = b.CurrentTurnStart ∧
    a.TimeRemaining = b.TimeRemaining

/-- The four texts `playerError` is called with. -/
def errorTexts : List String :=
  ["Invalid action data", "Out of bounds move", "Cell already occupied", "Not your turn"]

/-- `CurrentTurn` is empty or the id of a player in the roster. -/
def TurnInRoster (st : MatchState) : Prop :=
  st.CurrentTurn = "" ∨ ∃ p ∈ st.Players, p.userId = st.CurrentTurn

/-- Every player in the roster has the symbol X or the symbol O. -/
def PresentHaveSymbol (st : MatchState) : Prop :=
  ∀ p ∈ st.Players, st.PlayerSymbols p.userId = some "X" ∨ st.PlayerSymbols p.userId = some "O"

/-- Two players in the roster with different ids have different symbols. -/
def SymbolsDistinct (st : MatchState) : Prop :=
  ∀ p ∈ st.Players, ∀ q ∈ st.Players, p.userId ≠ q.userId →
    st.PlayerSymbols p.userId ≠ st.PlayerSymbols q.userId

/-- No symbol has been assigned, or every present player has a symbol from
X, O and present players with different ids have different symbols. -/
def SymbolInvariant (st : MatchState) : Prop :=
  (∀ userId, st.PlayerSymbols userId = none) ∨ (PresentHaveSymbol st ∧ SymbolsDistinct st)

/-- The call is a `MatchLeave`. -/
def Op.isLeave : Op → Bool
  | .leave _ => true
  | _ => false

/-- Every symbol in the map is X or O, and every player in the roster has an
entry. -/
def SymbolsAssigned (st : MatchState) : Prop :=
  (∀ userId symbol, st.PlayerSymbols userId = some symbol → symbol = "X" ∨ symbol = "O") ∧
    ∀ p ∈ st.Players, st.PlayerSymbols p.userId ≠ none

/-- The symbol map follows roster order: its keys are ids of roster members,
the first member has X, and a second member with another id has O. -/
def SymbolsByOrder (st : MatchState) : Prop :=
  (∀ userId, st.PlayerSymbols userId ≠ none → ∃ p ∈ st.Players, p.userId = userId) ∧
    (∀ p rest, st.Players = p :: rest → st.PlayerSymbols p.userId = some "X") ∧
    ∀ p q rest, st.Players = p :: q :: rest → q.userId ≠ p.userId →
      st.PlayerSymbols q.userId = some "O"

/-- The state in which the message that follows `pre` in a batch is processed:
the state after the steps for `pre`, when none of them returned. -/
def stateAfter (now : Int) : MatchState → List MatchData → Option MatchState
  | st, [] => some st
  | st, message :: rest =>
    if (processMessage now st message).returned then none
    else stateAfter now (processMessage now st message).state rest

/-- A result event: win-result, draw-result or timeout-result. -/
def Event.isResult (e : Event) : Bool :=
  e.opcode = 5 || e.opcode = 7 || e.opcode = 8

/-- A call of the ranking store. -/
def Event.isLeaderboardWrite : Event → Bool
  | .leaderboardWrite _ => true
  | _ => false

/-- The effects of a sequence of host calls, in order. -/
def runEvents (st : MatchState) : List Op → List Event
  | [] => []
  | op :: ops => opEvents st op ++ runEvents (applyOp st op) ops

/-- The outcome of joining `p1` and then `p2` at time `now` on the initial
state `init`: the roster, the two symbols, the turn, and the turn clock, which
is started in timed mode and untouched otherwise. -/
def JoinedTwo (init st : MatchState) (p1 p2 : Presence) (now : Int) : Prop :=
  st.Players = [p1, p2] ∧
    (∀ userId, st.PlayerSymbols userId =
      if userId = p1.userId then some "X" else if userId = p2.userId then some "O" else none) ∧
    st.CurrentTurn = p1.userId ∧
    (init.GameMode = GameModeTimed →
      st.CurrentTurnStart = now ∧ st.TimeRemaining = st.TurnTimeLimit) ∧
    (init.GameMode ≠ GameModeTimed →
      st.CurrentTurnStart = init.CurrentTurnStart ∧ st.TimeRemaining = init.TimeRemaining)

/-- The stored time remaining is the time left on the turn clock at `now`,
without a lower bound: `CurrentTurnStart + TurnTimeLimit - now`. -/
def ClockConsistent (now : Int) (st : MatchState) : Prop :=
  st.TimeRemaining = st.CurrentTurnStart + st.TurnTimeLimit - now

/-! ## Sample data -/

/-- A sample player. -/
def alice : Presence := ⟨"alice", "Alice"⟩

/-- A second sample player. -/
def bob : Presence := ⟨"bob", "Bob"⟩

/-- A third sample player. -/
def carol : Presence := ⟨"carol", "Carol"⟩

/-- A move message whose payload decodes to the given row and column. -/
def move (userId : String) (row col : Int) : MatchData :=
  ⟨userId, "", some ⟨row, col⟩⟩

/-- The initial state of a classic match created without parameters. -/
def classicInit : MatchState := (MatchInit NewMatch (fun _ => none)).1

/-- The initial state of a timed match created without parameters. -/
def timedInit : MatchState :=
  (MatchInit (NewMatchWithMode GameModeTimed) (fun _ => none)).1

/-- The host calls of a timed match in which alice holds cells 0 and 1, bob
cells 3 and 4, and alice then lets her clock run out. -/
def forfeitOps : List Op :=
  [ Op.join 100 [alice, bob],
    Op.loop 101 1 [move "alice" 0 0],
    Op.loop 102 2 [move "bob" 1 0],
    Op.loop 103 3 [move "alice" 0 1],
    Op.loop 104 4 [move "bob" 1 1],
    Op.loop 200 5 [] ]

/-- The state after `forfeitOps`: ended by timeout, bob recorded as winner. -/
def forfeited : MatchState := runOps timedInit forfeitOps

/-- A classic match in which alice holds cells 0 and 1, bob cells 3 and 4, and
it is alice's turn. -/
def midGame : MatchState :=
  runOps classicInit
    [ Op.join 100 [alice, bob],
      Op.loop 101 1 [move "alice" 0 0],
      Op.loop 102 2 [move "bob" 1 0],
      Op.loop 103 3 [move "alice" 0 1],
      Op.loop 104 4 [move "bob" 1 1] ]

/-- A classic match one move before a full board without a line:
`X O X / X O O / O X _`, alice (X) to move. -/
def lastMove : MatchState :=
  runOps classicInit
    [ Op.join 100 [alice, bob],
      Op.loop 101 1 [move "alice" 0 0],
      Op.loop 102 2 [move "bob" 0 1],
      Op.loop 103 3 [move "alice" 0 2],
      Op.loop 104 4 [move "bob" 1 1],
      Op.loop 105 5 [move "alice" 1 0],
      Op.loop 106 6 [move "bob" 1 2],
      Op.loop 107 7 [move "alice" 2 1],
      Op.loop 108 8 [move "bob" 2 0] ]

/-- A classic match after alice and bob joined and alice, the turn-holder,
left. -/
def turnHolderLeft : MatchState :=
  runOps classicInit [Op.join 100 [alice, bob], Op.leave [alice]]

/-- A classic match joined by three players in one call. -/
def threeJoined : MatchState :=
  runOps classicInit [Op.join 100 [alice, bob, carol]]

/-- A classic match in which alice left and carol joined next to bob. -/
def rejoined : MatchState :=
  runOps classicInit [Op.join 100 [alice, bob], Op.leave [alice], Op.join 101 [carol]]

/-- The timed match of `forfeitOps` before the clock runs out. -/
def timedMidGame : MatchState := runOps timedInit (forfeitOps.take 5)

/-- A player who never joined sends a move. -/
def strangerMove : MatchData := move "zed" 0 0

/-- A timed match joined by alice alone at time 100. -/
def aliceAlone : MatchState := runOps timedInit [Op.join 100 [alice]]

/-- Creation parameters that ask for the mode "blitz". -/
def blitzParams : StrMap ParamValue :=
  fun key => if key = "game_mode" then some (ParamValue.str "blitz") else none

/-- Creation parameters that ask for the timed mode. -/
def timedParams : StrMap ParamValue :=
  fun key => if key = "game_mode" then some (ParamValue.str "timed") else none

/-- A classic match that alice joined twice. -/
def joinedTwice : MatchState :=
  runOps classicInit [Op.join 100 [alice], Op.join 101 [alice]]

/-- The host calls of a classic match that alice wins with the top row. -/
def winOps : List Op :=
  [ Op.join 100 [alice, bob],
    Op.loop 101 1 [move "alice" 0 0],
    Op.loop 102 2 [move "bob" 1 0],
    Op.loop 103 3 [move "alice" 0 1],
    Op.loop 104 4 [move "bob" 1 1],
    Op.loop 105 5 [move "alice" 0 2] ]

/-- The host calls of `forfeitOps`, after which bob has won by timeout,
followed by four more accepted moves that leave cell 8 alone empty:
`X X O / O O X / X O _`, alice (X) to move. -/
def playOnOps : List Op :=
  forfeitOps ++
    [ Op.loop 201 6 [move "alice" 1 2],
      Op.loop 202 7 [move "bob" 0 2],
      Op.loop 203 8 [move "alice" 2 0],
      Op.loop 204 9 [move "bob" 2 1] ]

/-- The state after `playOnOps`. -/
def playedOn : MatchState := runOps timedInit playOnOps

/-! ## Win detection -/

theorem checkWin_iff (lines : List (Fin 9 × Fin 9 × Fin 9)) (board : Board) (symbol : String) :
    checkWin lines board symbol = true ↔
      ∃ w ∈ lines, board w.1 = symbol ∧ board w.2.1 = symbol ∧ board w.2.2 = symbol := by
  induction lines with
  | nil => simp [checkWin]
  | cons w rest ih =>
    unfold checkWin
    by_cases hw : board w.1 = symbol ∧ board w.2.1 = symbol ∧ board w.2.2 = symbol
    · simp only [hw, and_self, if_true, List.mem_cons, true_iff]
      exact ⟨w, Or.inl rfl, hw⟩
    · rw [if_neg hw, ih]
      constructor
      · rintro ⟨v, hv, hl⟩
        exact ⟨v, List.mem_cons_of_mem _ hv, hl⟩
      · rintro ⟨v, hv, hl⟩
        rcases List.mem_cons.mp hv with rfl | hv
        · exact absurd hl hw
        · exact ⟨v, hv, hl⟩

theorem checkWin_perm {lines lines2 : List (Fin 9 × Fin 9 × Fin 9)} (hp : lines.Perm lines2) :
    checkWin lines = checkWin lines2 := by
  funext board symbol
  rw [Bool.eq_iff_iff, checkWin_iff, checkWin_iff]
  constructor
  · rintro ⟨w, hw, hl⟩
    exact ⟨w, hp.mem_iff.mp hw, hl⟩
  · rintro ⟨w, hw, hl⟩
    exact ⟨w, hp.mem_iff.mpr hw, hl⟩

theorem checkWin_gameWin_iff (board : Board) (symbol : String) :
    checkWin gameWin board symbol = true ↔ EightLines board symbol := by
  rw [checkWin_iff]
  simp [gameWin, EightLines]

/-- The result of an accepted move, branch by branch. -/
theorem processMessage_accepted (now : Int) (st : MatchState) (message : MatchData)
    (action : Action)
    (h : ¬ (action.Row < 0 ∨ action.Row > 2 ∨ action.Col < 0 ∨ action.Col > 2))
    (hacc : Accepted st message action h) :
    processMessage now st message =
      (let st0 : MatchState :=
        { st with PlayerActions :=
            Function.update st.PlayerActions message.userId (some message.data) }
       let symbol := symbolOf st message.userId
       let st1 : MatchState := { st0 with TicTacToe := boardAfter st message action h }
       if checkWin gameWin st1.TicTacToe symbol then
         let st2 : MatchState := { st1 with GameEnded := true, Winner := message.userId }
         ⟨st2,
           [ Event.win ("We have a winner! " ++ symbol ++ " wins in " ++ st1.GameMode ++ " mode!")
               message.userId st1.TicTacToe st1.GameMode,
             Event.leaderboardWrite (writeToLeaderboard message.userId symbol st2) ],
           true⟩
       else if isDraw st1.TicTacToe then
         ⟨{ st1 with GameEnded := true },
           [ Event.draw ("It's a draw in " ++ st1.GameMode ++ " mode!") st1.TicTacToe
               st1.GameMode ],
           true⟩
       else
         let st2 := switchTurn now message.userId st1
         ⟨st2,
           [ Event.update st2.TicTacToe st2.CurrentTurn st2.GameMode
               (if st2.GameMode = GameModeTimed then some st2.TimeRemaining else none) ],
           false⟩) := by
  obtain ⟨hdec, hcell, hturn⟩ := hacc
  have hturn2 : ¬ (st.CurrentTurn ≠ "" ∧ st.CurrentTurn ≠ message.userId) := by
    rintro ⟨h1, h2⟩
    rcases hturn with h3 | h3
    · exact h1 h3
    · exact h2 h3
  unfold processMessage processMessageWith
  simp only [hdec, dif_neg h, hcell, ne_eq, not_true_eq_false, if_false, hturn2, symbolOf,
    boardAfter]

theorem switchTurn_board (now : Int) (sender : String) (st : MatchState) :
    (switchTurn now sender st).TicTacToe = st.TicTacToe := by
  unfold switchTurn
  by_cases h2 : st.Players.length = 2
  · rw [if_pos h2]
    cases st.Players.find? (fun p => decide (p.userId ≠ sender)) <;> dsimp only <;>
      split_ifs <;> rfl
  · rw [if_neg h2]

/-- C1: for an accepted move, the message loop takes the win branch
(win-result naming the sender, match ended, sender recorded as winner, call
returned) exactly when the board with the sender's symbol written into the
target cell has one of the eight lines filled with that symbol; and walking the
eight triples in any other order gives the same step. -/
theorem win_branch_iff_line (now : Int) (st : MatchState) (message : MatchData)
    (action : Action)
    (h : ¬ (action.Row < 0 ∨ action.Row > 2 ∨ action.Col < 0 ∨ action.Col > 2))
    (hacc : Accepted st message action h) :
    (WinBranch (processMessage now st message) message.userId (boardAfter st message action h) ↔
        EightLines (boardAfter st message action h) (symbolOf st message.userId)) ∧
      ∀ lines : List (Fin 9 × Fin 9 × Fin 9), lines.Perm gameWin →
        processMessageWith lines now st message = processMessage now st message := by
  refine ⟨?_, ?_⟩
  · rw [processMessage_accepted now st message action h hacc, ← checkWin_gameWin_iff]
    by_cases hw : checkWin gameWin (boardAfter st message action h) (symbolOf st message.userId)
        = true
    · simp [hw, WinBranch]
    · by_cases hd : isDraw (boardAfter st message action h) = true
      · simp [hw, hd, WinBranch]
      · simp [hw, hd, WinBranch]
  · intro lines hp
    unfold processMessage processMessageWith
    rw [checkWin_perm hp]

/-! ## Draw detection -/

theorem isDraw_iff (board : Board) : isDraw board = true ↔ ∀ i, board i ≠ "" := by
  simp [isDraw, List.all_eq_true, List.mem_finRange]

/-- Whatever the message, a step that broadcasts a draw-result leaves a board
without an empty cell. -/
theorem draw_event_full (now : Int) (st : MatchState) (message : MatchData)
    (hd : ∃ text board mode, Event.draw text board mode ∈ (processMessage now st message).events) :
    ∀ i, (processMessage now st message).state.TicTacToe i ≠ "" := by
  obtain ⟨text, board, mode, hmem⟩ := hd
  revert hmem
  unfold processMessage processMessageWith
  cases hdec : message.action with
  | none => simp [playerError]
  | some action =>
    dsimp only
    split_ifs
    all_goals first
      | (intro _; exact (isDraw_iff _).mp (by assumption))
      | simp [playerError]

/-- The draw branch of one step: an accepted move that leaves the board without
an empty cell and without a line of three equal symbols is reported as a draw
and not as a win:
the step returns, its only effect is the draw-result showing the new board (so
no win-result and no leaderboard record), the match is ended and `Winner` keeps
its value; and no step broadcasts a draw-result while a cell is empty. -/
theorem draw_when_full_without_line (now : Int) (st : MatchState) (message : MatchData)
    (action : Action)
    (h : ¬ (action.Row < 0 ∨ action.Row > 2 ∨ action.Col < 0 ∨ action.Col > 2))
    (hacc : Accepted st message action h)
    (hfull : ∀ i, boardAfter st message action h i ≠ "")
    (hnoline : NoLine (boardAfter st message action h)) :
    ((processMessage now st message).returned = true ∧
      (processMessage now st message).events =
        [ Event.draw ("It's a draw in " ++ st.GameMode ++ " mode!")
            (boardAfter st message action h) st.GameMode ] ∧
      (processMessage now st message).state.GameEnded = true ∧
      (processMessage now st message).state.Winner = st.Winner ∧
      (processMessage now st message).state.TicTacToe = boardAfter st message action h) ∧
    ∀ (now2 : Int) (st2 : MatchState) (message2 : MatchData),
      (∃ text board mode,
          Event.draw text board mode ∈ (processMessage now2 st2 message2).events) →
        ∀ i, (processMessage now2 st2 message2).state.TicTacToe i ≠ "" := by
  refine ⟨?_, fun now2 st2 message2 hd => draw_event_full now2 st2 message2 hd⟩
  have hw : ¬ checkWin gameWin (boardAfter st message action h) (symbolOf st message.userId)
      = true := by
    rw [checkWin_iff]
    rintro ⟨w, hw, h1, h2, h3⟩
    exact hnoline w hw ⟨h1.trans h2.symm, h2.trans h3.symm⟩
  have hd : isDraw (boardAfter st message action h) = true := (isDraw_iff _).mpr hfull
  rw [processMessage_accepted now st message action h hacc]
  simp [hw, hd]

/-! ## Rejected messages -/

theorem findPresence_userId (players : List Presence) (userId : String) (p : Presence)
    (hp : findPresence players userId = some p) : p.userId = userId := by
  have := List.find?_some hp
  simpa using this

/-- C3: a decoded, in-bounds move onto a cell that already holds a symbol is
rejected, whoever sends it: the step's only effect is the error "Cell already
occupied" addressed to the sender's presence, the loop goes on to the next
message, and the board, `CurrentTurn`, `Players`, `PlayerSymbols`, `GameEnded`
and `Winner` (every field but the message buffer) are as before. -/
theorem occupied_cell_rejected (now : Int) (st : MatchState) (message : MatchData)
    (action : Action)
    (h : ¬ (action.Row < 0 ∨ action.Row > 2 ∨ action.Col < 0 ∨ action.Col > 2))
    (hdec : message.action = some action)
    (hocc : st.TicTacToe (cellIndex action h) ≠ "") :
    (processMessage now st message).events =
        [Event.error (findPresence st.Players message.userId) "Cell already occupied"] ∧
      (∀ p, findPresence st.Players message.userId = some p → p.userId = message.userId) ∧
      (processMessage now st message).returned = false ∧
      SameGame (processMessage now st message).state st := by
  refine ⟨?_, fun p hp => findPresence_userId _ _ p hp, ?_, ?_⟩ <;>
    (unfold processMessage processMessageWith
     simp only [hdec, dif_neg h, hocc, ne_eq, not_false_eq_true, if_true, playerError, SameGame,
       and_self])

/-- C4: when `CurrentTurn` is set and is not the sender, the step changes no
field of the state but the message buffer (so not the board, `CurrentTurn`,
`GameEnded` or `Winner`), whatever the payload, the row, the column and the
target cell are; its only effect is one error addressed to the sender's
presence, and the loop goes on to the next message. -/
theorem not_your_turn_rejected (now : Int) (st : MatchState) (message : MatchData)
    (hset : st.CurrentTurn ≠ "") (hother : st.CurrentTurn ≠ message.userId) :
    (∃ text ∈ errorTexts, (processMessage now st message).events =
        [Event.error (findPresence st.Players message.userId) text]) ∧
      (∀ p, findPresence st.Players message.userId = some p → p.userId = message.userId) ∧
      (processMessage now st message).returned = false ∧
      SameGame (processMessage now st message).state st := by
  have hturn : st.CurrentTurn ≠ "" ∧ st.CurrentTurn ≠ message.userId := ⟨hset, hother⟩
  refine ⟨?_, fun p hp => findPresence_userId _ _ p hp, ?_, ?_⟩ <;>
    (unfold processMessage processMessageWith
     cases hdec : message.action with
     | none => simp [playerError, SameGame, errorTexts]
     | some action =>
       dsimp only
       split_ifs <;> simp [playerError, SameGame, errorTexts])

/-! ## Frame lemmas for the tick -/

theorem switchTurn_players (now : Int) (sender : String) (st : MatchState) :
    (switchTurn now sender st).Players = st.Players := by
  unfold switchTurn
  by_cases h2 : st.Players.length = 2
  · rw [if_pos h2]
    cases st.Players.find? (fun p => decide (p.userId ≠ sender)) <;> dsimp only <;>
      split_ifs <;> rfl
  · rw [if_neg h2]

theorem switchTurn_symbols (now : Int) (sender : String) (st : MatchState) :
    (switchTurn now sender st).PlayerSymbols = st.PlayerSymbols := by
  unfold switchTurn
  by_cases h2 : st.Players.length = 2
  · rw [if_pos h2]
    cases st.Players.find? (fun p => decide (p.userId ≠ sender)) <;> dsimp only <;>
      split_ifs <;> rfl
  · rw [if_neg h2]

theorem switchTurn_turn (now : Int) (sender : String) (st : MatchState) :
    (switchTurn now sender st).CurrentTurn = st.CurrentTurn ∨
      ∃ p ∈ st.Players, p.userId = (switchTurn now sender st).CurrentTurn := by
  unfold switchTurn
  by_cases h2 : st.Players.length = 2
  · rw [if_pos h2]
    cases hf : st.Players.find? (fun p => decide (p.userId ≠ sender)) with
    | none => dsimp only; split_ifs <;> exact Or.inl rfl
    | some q =>
      have hq : q ∈ st.Players := List.mem_of_find?_eq_some hf
      dsimp only
      split_ifs <;> exact Or.inr ⟨q, hq, rfl⟩
  · rw [if_neg h2]
    exact Or.inl rfl

theorem processMessageWith_players (lines : List (Fin 9 × Fin 9 × Fin 9)) (now : Int)
    (st : MatchState) (message : MatchData) :
    (processMessageWith lines now st message).state.Players = st.Players := by
  unfold processMessageWith
  cases message.action with
  | none => rfl
  | some action =>
    dsimp only
    split_ifs <;> first | rfl | exact switchTurn_players _ _ _

theorem processMessageWith_symbols (lines : List (Fin 9 × Fin 9 × Fin 9)) (now : Int)
    (st : MatchState) (message : MatchData) :
    (processMessageWith lines now st message).state.PlayerSymbols = st.PlayerSymbols := by
  unfold processMessageWith
  cases message.action with
  | none => rfl
  | some action =>
    dsimp only
    split_ifs <;> first | rfl | exact switchTurn_symbols _ _ _

theorem processMessageWith_turn (lines : List (Fin 9 × Fin 9 × Fin 9)) (now : Int)
    (st : MatchState) (message : MatchData) :
    (processMessageWith lines now st message).state.CurrentTurn = st.CurrentTurn ∨
      ∃ p ∈ st.Players,
        p.userId = (processMessageWith lines now st message).state.CurrentTurn := by
  unfold processMessageWith
  cases message.action with
  | none => exact Or.inl rfl
  | some action =>
    dsimp only
    split_ifs <;> first | exact Or.inl rfl | exact switchTurn_turn _ _ _

theorem processMessages_players (now : Int) (messages : List MatchData) (st : MatchState) :
    (processMessages now st messages).1.Players = st.Players := by
  induction messages generalizing st with
  | nil => rfl
  | cons message rest ih =>
    unfold processMessages
    dsimp only
    split_ifs
    · exact processMessageWith_players _ _ _ _
    · rw [ih]
      exact processMessageWith_players _ _ _ _

theorem processMessages_symbols (now : Int) (messages : List MatchData) (st : MatchState) :
    (processMessages now st messages).1.PlayerSymbols = st.PlayerSymbols := by
  induction messages generalizing st with
  | nil => rfl
  | cons message rest ih =>
    unfold processMessages
    dsimp only
    split_ifs
    · exact processMessageWith_symbols _ _ _ _
    · rw [ih]
      exact processMessageWith_symbols _ _ _ _

theorem processMessages_turn (now : Int) (messages : List MatchData) (st : MatchState) :
    (processMessages now st messages).1.CurrentTurn = st.CurrentTurn ∨
      ∃ p ∈ st.Players, p.userId = (processMessages now st messages).1.CurrentTurn := by
  induction messages generalizing st with
  | nil => exact Or.inl rfl
  | cons message rest ih =>
    unfold processMessages
    dsimp only
    split_ifs
    · exact processMessageWith_turn _ _ _ _
    · rcases ih (processMessage now st message).state with h1 | ⟨p, hp, h1⟩
      · rw [h1]
        exact processMessageWith_turn _ _ _ _
      · right
        refine ⟨p, ?_, h1⟩
        rw [← processMessageWith_players gameWin now st message]
        exact hp

theorem timerStep_players (now tick : Int) (st : MatchState) :
    (timerStep now tick st).state.Players = st.Players := by
  unfold timerStep
  dsimp only
  split_ifs <;> rfl

theorem timerStep_symbols (now tick : Int) (st : MatchState) :
    (timerStep now tick st).state.PlayerSymbols = st.PlayerSymbols := by
  unfold timerStep
  dsimp only
  split_ifs <;> rfl

theorem timerStep_turn (now tick : Int) (st : MatchState) :
    (timerStep now tick st).state.CurrentTurn = st.CurrentTurn := by
  unfold timerStep
  dsimp only
  split_ifs <;> rfl

theorem MatchLoop_players (now tick : Int) (st : MatchState) (messages : List MatchData) :
    (MatchLoop now tick (some st) messages).1.Players = st.Players := by
  unfold MatchLoop getMatchState
  dsimp only
  split_ifs
  · exact timerStep_players _ _ _
  · rw [processMessages_players, timerStep_players]

theorem MatchLoop_symbols (now tick : Int) (st : MatchState) (messages : List MatchData) :
    (MatchLoop now tick (some st) messages).1.PlayerSymbols = st.PlayerSymbols := by
  unfold MatchLoop getMatchState
  dsimp only
  split_ifs
  · exact timerStep_symbols _ _ _
  · rw [processMessages_symbols, timerStep_symbols]

theorem MatchLoop_turn (now tick : Int) (st : MatchState) (messages : List MatchData) :
    (MatchLoop now tick (some st) messages).1.CurrentTurn = st.CurrentTurn ∨
      ∃ p ∈ st.Players, p.userId = (MatchLoop now tick (some st) messages).1.CurrentTurn := by
  unfold MatchLoop getMatchState
  dsimp only
  split_ifs
  · exact Or.inl (timerStep_turn _ _ _)
  · rcases processMessages_turn now messages (timerStep now tick st).state with h1 | ⟨p, hp, h1⟩
    · left
      rw [h1, timerStep_turn]
    · right
      rw [timerStep_players] at hp
      exact ⟨p, hp, h1⟩

/-! ## The timer block -/

theorem timeoutWinner_other (st : MatchState)
    (hother : ∃ p ∈ st.Players, p.userId ≠ st.CurrentTurn) :
    ∃ p ∈ st.Players, p.userId ≠ st.CurrentTurn ∧
      timeoutWinner st = (p.userId, (st.PlayerSymbols p.userId).getD "") := by
  unfold timeoutWinner
  cases hf : st.Players.find? (fun p => decide (p.userId ≠ st.CurrentTurn)) with
  | none =>
    obtain ⟨p, hp, hne⟩ := hother
    have := List.find?_eq_none.mp hf p hp
    simp [hne] at this
  | some q =>
    have hq : q ∈ st.Players := List.mem_of_find?_eq_some hf
    have hne : q.userId ≠ st.CurrentTurn := by
      have := List.find?_some hf
      simpa using this
    exact ⟨q, hq, hne, rfl⟩

/-- C6: in a timed, not yet ended match whose turn clock runs and whose roster
(of players with non-empty ids) has a member other than the turn-holder, a tick
at a time `now` with `now - CurrentTurnStart >= TurnTimeLimit` ends the match:
`GameEnded` is set, `Winner` is a roster member other than `CurrentTurn`, the
board is as before, and the effects are one timeout-result followed by the
leaderboard record, whatever messages the tick carries; a tick with
`now - CurrentTurnStart < TurnTimeLimit` passes the timer block without
returning, without ending the match and without a timeout-result. -/
theorem timeout_forfeit (now tick : Int) (st : MatchState) (messages : List MatchData)
    (hmode : st.GameMode = GameModeTimed) (hend : st.GameEnded = false)
    (hstart : st.CurrentTurnStart > 0)
    (hother : ∃ p ∈ st.Players, p.userId ≠ st.CurrentTurn)
    (hids : ∀ p ∈ st.Players, p.userId ≠ "") :
    (now - st.CurrentTurnStart ≥ st.TurnTimeLimit →
      (MatchLoop now tick (some st) messages).1.GameEnded = true ∧
      (∃ p ∈ st.Players, p.userId = (MatchLoop now tick (some st) messages).1.Winner ∧
        p.userId ≠ st.CurrentTurn) ∧
      (MatchLoop now tick (some st) messages).1.TicTacToe = st.TicTacToe ∧
      ∃ text record, (MatchLoop now tick (some st) messages).2 =
        [ Event.timeout text (MatchLoop now tick (some st) messages).1.Winner st.TicTacToe
            st.GameMode,
          Event.leaderboardWrite record ]) ∧
    (now - st.CurrentTurnStart < st.TurnTimeLimit →
      (timerStep now tick st).returned = false ∧
      (timerStep now tick st).state.GameEnded = false ∧
      ∀ e ∈ (timerStep now tick st).events, e.opcode ≠ 8) := by
  have hguard : st.GameMode = GameModeTimed ∧ st.CurrentTurnStart > 0 ∧ st.GameEnded = false :=
    ⟨hmode, hstart, hend⟩
  constructor
  · intro hexp
    obtain ⟨p, hp, hne, hw⟩ := timeoutWinner_other st hother
    have hw1 : timeoutWinner { st with TimeRemaining := st.TurnTimeLimit -
        (now - st.CurrentTurnStart) } = (p.userId, (st.PlayerSymbols p.userId).getD "") := hw
    have hle : st.TurnTimeLimit - (now - st.CurrentTurnStart) ≤ 0 := by omega
    have hstep : timerStep now tick st =
        ⟨{ st with TimeRemaining := st.TurnTimeLimit - (now - st.CurrentTurnStart),
                   GameEnded := true, Winner := p.userId },
          [ Event.timeout ("Time's up! " ++ (st.PlayerSymbols p.userId).getD "" ++
              " wins by timeout!") p.userId st.TicTacToe st.GameMode,
            Event.leaderboardWrite (writeToLeaderboard p.userId
              ((st.PlayerSymbols p.userId).getD "")
              { st with TimeRemaining := st.TurnTimeLimit - (now - st.CurrentTurnStart),
                        GameEnded := true, Winner := p.userId }) ],
          true⟩ := by
      have hcond : st.TurnTimeLimit - (now - st.CurrentTurnStart) ≤ 0 ∧
          (timeoutWinner { st with TimeRemaining := st.TurnTimeLimit -
            (now - st.CurrentTurnStart) }).1 ≠ "" := by
        rw [hw1]
        exact ⟨hle, hids p hp⟩
      unfold timerStep
      rw [if_pos hguard]
      dsimp only
      rw [if_pos hcond, hw1]
    unfold MatchLoop getMatchState
    simp only [hstep, if_true]
    exact ⟨trivial, ⟨p, hp, rfl, hne⟩, trivial, _, _, rfl⟩
  · intro hlt
    have hgt : ¬ (st.TurnTimeLimit - (now - st.CurrentTurnStart) ≤ 0) := by omega
    unfold timerStep
    rw [if_pos hguard]
    dsimp only
    rw [if_neg (fun hc => hgt hc.1)]
    refine ⟨rfl, hend, ?_⟩
    intro e he
    unfold timeBroadcast at he
    split_ifs at he
    · simp only [List.mem_singleton] at he
      subst he
      simp [Event.opcode]
    · simp at he

/-! ## Roster and symbols across join and leave -/

theorem appendPresences_eq (players presences : List Presence) :
    appendPresences players presences = players ++ presences := by
  induction presences generalizing players with
  | nil => simp [appendPresences]
  | cons presence rest ih => simp [appendPresences, ih]

theorem assignSymbol_players (now : Int) (i : Nat) (player : Presence) (st : MatchState) :
    (assignSymbol now i player st).Players = st.Players := by
  unfold assignSymbol
  dsimp only
  split_ifs <;> rfl

theorem assignSymbols_players (now : Int) (l : List Presence) (i : Nat) (st : MatchState) :
    (assignSymbols now i l st).Players = st.Players := by
  induction l generalizing i st with
  | nil => rfl
  | cons player rest ih =>
    unfold assignSymbols
    rw [ih, assignSymbol_players]

theorem MatchJoin_players (now : Int) (st : MatchState) (presences : List Presence) :
    (MatchJoin now (some st) presences).1.Players = st.Players ++ presences := by
  unfold MatchJoin getMatchState
  dsimp only
  rw [assignSymbols_players, appendPresences_eq]

theorem assignSymbol_keeps (now : Int) (i : Nat) (player : Presence) (st : MatchState)
    (userId symbol : String) (hs : st.PlayerSymbols userId = some symbol) :
    (assignSymbol now i player st).PlayerSymbols userId = some symbol := by
  unfold assignSymbol
  by_cases hex : (st.PlayerSymbols player.userId).isSome = true
  · rw [if_pos hex]
    exact hs
  · rw [if_neg hex]
    have hne : userId ≠ player.userId := by
      rintro rfl
      rw [hs] at hex
      exact hex rfl
    dsimp only
    split_ifs <;> simp [Function.update_noteq hne, hs]

theorem assignSymbols_keeps (now : Int) (l : List Presence) (i : Nat) (st : MatchState)
    (userId symbol : String) (hs : st.PlayerSymbols userId = some symbol) :
    (assignSymbols now i l st).PlayerSymbols userId = some symbol := by
  induction l generalizing i st with
  | nil => exact hs
  | cons player rest ih =>
    unfold assignSymbols
    exact ih _ _ (assignSymbol_keeps now i player st userId symbol hs)

theorem MatchJoin_keeps (now : Int) (st : MatchState) (presences : List Presence)
    (userId symbol : String) (hs : st.PlayerSymbols userId = some symbol) :
    (MatchJoin now (some st) presences).1.PlayerSymbols userId = some symbol := by
  unfold MatchJoin getMatchState
  exact assignSymbols_keeps now _ 0 _ userId symbol hs

theorem leaveLoop_symbols (presences : List Presence) (st : MatchState) :
    (leaveLoop st presences).1.PlayerSymbols = st.PlayerSymbols := by
  induction presences generalizing st with
  | nil => rfl
  | cons presence rest ih =>
    unfold leaveLoop
    dsimp only
    rw [ih]

theorem leaveLoop_turn (presences : List Presence) (st : MatchState) :
    (leaveLoop st presences).1.CurrentTurn = st.CurrentTurn := by
  induction presences generalizing st with
  | nil => rfl
  | cons presence rest ih =>
    unfold leaveLoop
    dsimp only
    rw [ih]

theorem runOps_snoc (st : MatchState) (ops : List Op) (op : Op) :
    runOps st (ops ++ [op]) = applyOp (runOps st ops) op := by
  simp [runOps, List.foldl_append]

theorem applyOp_keeps (st : MatchState) (op : Op) (userId symbol : String)
    (hs : st.PlayerSymbols userId = some symbol) :
    (applyOp st op).PlayerSymbols userId = some symbol := by
  cases op with
  | join now presences => exact MatchJoin_keeps now st presences userId symbol hs
  | leave presences =>
    unfold applyOp MatchLeave getMatchState
    rw [leaveLoop_symbols]
    exact hs
  | loop now tick messages =>
    unfold applyOp
    rw [MatchLoop_symbols]
    exact hs

/-- C5, evaluated: in the timed match `forfeited`, reached from `MatchInit`,
the game is ended with bob as winner by timeout; the next tick still accepts
alice's move into cell 2, writes her symbol, broadcasts a win-result, writes a
second leaderboard record and replaces the winner by alice. -/
theorem ended_match_accepts_move :
    Reachable forfeited ∧ forfeited.GameEnded = true ∧ forfeited.Winner = "bob" ∧
      forfeited.TicTacToe 2 = "" ∧
      (MatchLoop 201 6 (some forfeited) [move "alice" 0 2]).1.TicTacToe 2 = "X" ∧
      (MatchLoop 201 6 (some forfeited) [move "alice" 0 2]).1.Winner = "alice" ∧
      (MatchLoop 201 6 (some forfeited) [move "alice" 0 2]).2.map Event.opcode = [5, 0] :=
  ⟨⟨NewMatchWithMode GameModeTimed, fun _ => none, forfeitOps, rfl⟩,
    by decide, by decide, by decide, by decide, by decide, by decide⟩

/-- C7, evaluated: alice joins a fresh classic match and then joins again; the
second call appends her once more, so the roster has two entries with her
id. -/
theorem duplicate_join_appended :
    (MatchJoin 100 (some classicInit) [alice]).1.Players = [alice] ∧
      (MatchJoin 101 (some (MatchJoin 100 (some classicInit) [alice]).1) [alice]).1.Players =
        [alice, alice] := by
  rw [MatchJoin_players, MatchJoin_players]
  exact ⟨rfl, rfl⟩

/-- C8: an entry of `PlayerSymbols` is never changed or removed: whatever
sequence of join, leave and loop calls follows, a player id that maps to a
symbol keeps mapping to that symbol. -/
theorem symbol_entry_stable (st : MatchState) (ops : List Op) (userId symbol : String)
    (hs : st.PlayerSymbols userId = some symbol) :
    (runOps st ops).PlayerSymbols userId = some symbol := by
  induction ops using List.reverseRecOn with
  | nil => exact hs
  | append_singleton ops op ih =>
    rw [runOps_snoc]
    exact applyOp_keeps _ op userId symbol ih

/-! ## The turn-holder and the roster -/

theorem newMatchState_turn (mode : GameMode) : (newMatchState mode).CurrentTurn = "" := by
  unfold newMatchState
  dsimp only
  split_ifs <;> rfl

theorem newMatchState_players (mode : GameMode) : (newMatchState mode).Players = [] := by
  unfold newMatchState
  dsimp only
  split_ifs <;> rfl

theorem newMatchState_symbols (mode : GameMode) (userId : String) :
    (newMatchState mode).PlayerSymbols userId = none := by
  unfold newMatchState
  dsimp only
  split_ifs <;> rfl

theorem assignSymbol_turn (now : Int) (i : Nat) (player : Presence) (st : MatchState) :
    (assignSymbol now i player st).CurrentTurn = st.CurrentTurn ∨
      (assignSymbol now i player st).CurrentTurn = player.userId := by
  unfold assignSymbol
  dsimp only
  split_ifs
  · exact Or.inl rfl
  · exact Or.inr rfl
  · exact Or.inr rfl
  · exact Or.inl rfl

theorem assignSymbols_turn (now : Int) (l : List Presence) (i : Nat) (st : MatchState) :
    (assignSymbols now i l st).CurrentTurn = st.CurrentTurn ∨
      ∃ p ∈ l, p.userId = (assignSymbols now i l st).CurrentTurn := by
  induction l generalizing i st with
  | nil => exact Or.inl rfl
  | cons player rest ih =>
    unfold assignSymbols
    rcases ih (i + 1) (assignSymbol now i player st) with h1 | ⟨p, hp, h1⟩
    · rcases assignSymbol_turn now i player st with h2 | h2
      · exact Or.inl (h1.trans h2)
      · exact Or.inr ⟨player, List.mem_cons_self _ _, (h1.trans h2).symm⟩
    · exact Or.inr ⟨p, List.mem_cons_of_mem _ hp, h1⟩

theorem MatchJoin_turn (now : Int) (st : MatchState) (presences : List Presence) :
    (MatchJoin now (some st) presences).1.CurrentTurn = st.CurrentTurn ∨
      ∃ p ∈ (MatchJoin now (some st) presences).1.Players,
        p.userId = (MatchJoin now (some st) presences).1.CurrentTurn := by
  rw [MatchJoin_players]
  unfold MatchJoin getMatchState
  dsimp only
  rcases assignSymbols_turn now (appendPresences st.Players presences) 0
      { st with Players := appendPresences st.Players presences } with h | ⟨p, hp, h⟩
  · exact Or.inl h
  · rw [appendPresences_eq] at hp
    exact Or.inr ⟨p, hp, h⟩

theorem removePlayer_mem (userId : String) (l : List Presence) (p : Presence) (hp : p ∈ l) :
    p ∈ removePlayer userId l ∨ p.userId = userId := by
  induction l with
  | nil => cases hp
  | cons q rest ih =>
    unfold removePlayer
    by_cases hq : q.userId = userId
    · rw [if_pos hq]
      rcases List.mem_cons.mp hp with rfl | hp
      · exact Or.inr hq
      · exact Or.inl hp
    · rw [if_neg hq]
      rcases List.mem_cons.mp hp with rfl | hp
      · exact Or.inl (List.mem_cons_self _ _)
      · rcases ih hp with h | h
        · exact Or.inl (List.mem_cons_of_mem _ h)
        · exact Or.inr h

theorem removePlayer_subset (userId : String) (l : List Presence) (p : Presence)
    (hp : p ∈ removePlayer userId l) : p ∈ l := by
  induction l with
  | nil => cases hp
  | cons q rest ih =>
    unfold removePlayer at hp
    by_cases hq : q.userId = userId
    · rw [if_pos hq] at hp
      exact List.mem_cons_of_mem _ hp
    · rw [if_neg hq] at hp
      rcases List.mem_cons.mp hp with rfl | hp
      · exact List.mem_cons_self _ _
      · exact List.mem_cons_of_mem _ (ih hp)

theorem leaveLoop_mem (presences : List Presence) (st : MatchState) (p : Presence)
    (hp : p ∈ st.Players) :
    p ∈ (leaveLoop st presences).1.Players ∨ ∃ q ∈ presences, q.userId = p.userId := by
  induction presences generalizing st with
  | nil => exact Or.inl hp
  | cons presence rest ih =>
    unfold leaveLoop
    dsimp only
    rcases removePlayer_mem presence.userId st.Players p hp with h | h
    · rcases ih { st with Players := removePlayer presence.userId st.Players } h with h2 | h2
      · exact Or.inl h2
      · obtain ⟨q, hq, hid⟩ := h2
        exact Or.inr ⟨q, List.mem_cons_of_mem _ hq, hid⟩
    · exact Or.inr ⟨presence, List.mem_cons_self _ _, h.symm⟩

theorem leaveLoop_subset (presences : List Presence) (st : MatchState) (p : Presence)
    (hp : p ∈ (leaveLoop st presences).1.Players) : p ∈ st.Players := by
  induction presences generalizing st with
  | nil => exact hp
  | cons presence rest ih =>
    unfold leaveLoop at hp
    dsimp only at hp
    exact removePlayer_subset _ _ _ (ih _ hp)

/-- C10, as stated, fails: after alice and bob join a fresh match and alice,
the turn-holder, leaves, `CurrentTurn` is still "alice" while the roster holds
bob alone. -/
theorem turn_holder_left_counterexample :
    Reachable turnHolderLeft ∧ turnHolderLeft.CurrentTurn = "alice" ∧
      turnHolderLeft.Players = [bob] ∧ ¬ TurnInRoster turnHolderLeft := by
  refine ⟨⟨NewMatch, fun _ => none, _, rfl⟩, by decide, by decide, ?_⟩
  rintro (h | ⟨p, hp, h⟩)
  · exact absurd h (by decide)
  · have hp2 : p = bob := by
      have hl : turnHolderLeft.Players = [bob] := by decide
      rw [hl] at hp
      simpa using hp
    subst hp2
    exact absurd h (by decide)

/-- C10, amended: in every state reached from `MatchInit` through join, leave
and loop calls, `CurrentTurn` is empty, or the id of a player in the roster, or
the id of a player named in one of the `MatchLeave` calls of the run. -/
theorem turn_in_roster_unless_left (m : Match) (params : StrMap ParamValue) (ops : List Op) :
    TurnInRoster (runOps (MatchInit m params).1 ops) ∨
      ∃ presences, Op.leave presences ∈ ops ∧
        ∃ q ∈ presences, q.userId = (runOps (MatchInit m params).1 ops).CurrentTurn := by
  induction ops using List.reverseRecOn with
  | nil =>
    left
    left
    exact newMatchState_turn _
  | append_singleton ops op ih =>
    rw [runOps_snoc]
    have hleft : ∀ turn : String,
        (∃ presences, Op.leave presences ∈ ops ∧ ∃ q ∈ presences, q.userId = turn) →
        ∃ presences, Op.leave presences ∈ ops ++ [op] ∧ ∃ q ∈ presences, q.userId = turn := by
      rintro turn ⟨presences, hmem, hq⟩
      exact ⟨presences, List.mem_append_left _ hmem, hq⟩
    cases op with
    | join now presences =>
      unfold applyOp
      rcases MatchJoin_turn now (runOps (MatchInit m params).1 ops) presences with h | h
      · rw [h]
        rcases ih with (h1 | ⟨p, hp, h1⟩) | h1
        · exact Or.inl (Or.inl (h.trans h1))
        · left
          right
          refine ⟨p, ?_, h1.trans h.symm⟩
          rw [MatchJoin_players]
          exact List.mem_append_left _ hp
        · exact Or.inr (hleft _ h1)
      · exact Or.inl (Or.inr h)
    | leave presences =>
      have hturn : (applyOp (runOps (MatchInit m params).1 ops) (Op.leave presences)).CurrentTurn
          = (runOps (MatchInit m params).1 ops).CurrentTurn := by
        unfold applyOp MatchLeave getMatchState
        exact leaveLoop_turn _ _
      rw [hturn]
      rcases ih with (h1 | ⟨p, hp, h1⟩) | h1
      · exact Or.inl (Or.inl (hturn.trans h1))
      · rcases leaveLoop_mem presences _ p hp with h2 | ⟨q, hq, h2⟩
        · left
          right
          refine ⟨p, h2, ?_⟩
          rw [hturn]
          exact h1
        · right
          exact ⟨presences, List.mem_append_right _ (List.mem_singleton_self _), q, hq,
            h2.trans h1⟩
      · exact Or.inr (hleft _ h1)
    | loop now tick messages =>
      unfold applyOp
      rcases MatchLoop_turn now tick (runOps (MatchInit m params).1 ops) messages with h | h
      · rw [h]
        rcases ih with (h1 | ⟨p, hp, h1⟩) | h1
        · exact Or.inl (Or.inl (h.trans h1))
        · left
          right
          refine ⟨p, ?_, h1.trans h.symm⟩
          rw [MatchLoop_players]
          exact hp
        · exact Or.inr (hleft _ h1)
      · left
        right
        rw [MatchLoop_players]
        exact h

/-! ## Symbols of the players in the roster -/

theorem symbolAt_cases (i : Nat) : symbolAt i = "X" ∨ symbolAt i = "O" := by
  have h : ∀ j : Fin symbols.length, symbols.get j = "X" ∨ symbols.get j = "O" := by decide
  exact h _

theorem assignSymbol_symbols (now : Int) (i : Nat) (player : Presence) (st : MatchState) :
    (assignSymbol now i player st).PlayerSymbols =
      if (st.PlayerSymbols player.userId).isSome then st.PlayerSymbols
      else Function.update st.PlayerSymbols player.userId (some (symbolAt i)) := by
  unfold assignSymbol
  dsimp only
  split_ifs <;> rfl

theorem assignSymbol_new (now : Int) (i : Nat) (player : Presence) (st : MatchState)
    (hn : st.PlayerSymbols player.userId = none) :
    (assignSymbol now i player st).PlayerSymbols player.userId = some (symbolAt i) := by
  rw [assignSymbol_symbols]
  simp [hn]

theorem assignSymbol_other (now : Int) (i : Nat) (player : Presence) (st : MatchState)
    (userId : String) (hne : userId ≠ player.userId) :
    (assignSymbol now i player st).PlayerSymbols userId = st.PlayerSymbols userId := by
  rw [assignSymbol_symbols]
  split_ifs
  · rfl
  · exact Function.update_noteq hne _ _

theorem assignSymbol_has (now : Int) (i : Nat) (player : Presence) (st : MatchState) :
    (assignSymbol now i player st).PlayerSymbols player.userId ≠ none := by
  cases hs : st.PlayerSymbols player.userId with
  | none =>
    rw [assignSymbol_new now i player st hs]
    exact Option.some_ne_none _
  | some symbol =>
    rw [assignSymbol_keeps now i player st _ symbol hs]
    exact Option.some_ne_none _

theorem assignSymbol_values (now : Int) (i : Nat) (player : Presence) (st : MatchState)
    (hv : ∀ userId symbol, st.PlayerSymbols userId = some symbol → symbol = "X" ∨ symbol = "O")
    (userId symbol : String)
    (hs : (assignSymbol now i player st).PlayerSymbols userId = some symbol) :
    symbol = "X" ∨ symbol = "O" := by
  by_cases hid : userId = player.userId
  · subst hid
    cases hold : st.PlayerSymbols player.userId with
    | none =>
      rw [assignSymbol_new now i player st hold] at hs
      have := symbolAt_cases i
      rw [Option.some.inj hs] at this
      exact this
    | some old =>
      rw [assignSymbol_keeps now i player st _ old hold] at hs
      exact hv _ _ (hold.trans hs)
  · rw [assignSymbol_other now i player st userId hid] at hs
    exact hv _ _ hs

theorem assignSymbols_values (now : Int) (l : List Presence) (i : Nat) (st : MatchState)
    (hv : ∀ userId symbol, st.PlayerSymbols userId = some symbol → symbol = "X" ∨ symbol = "O") :
    ∀ userId symbol, (assignSymbols now i l st).PlayerSymbols userId = some symbol →
      symbol = "X" ∨ symbol = "O" := by
  induction l generalizing i st with
  | nil => exact hv
  | cons player rest ih =>
    unfold assignSymbols
    exact ih _ _ (assignSymbol_values now i player st hv)

theorem assignSymbols_ne_none (now : Int) (l : List Presence) (i : Nat) (st : MatchState)
    (userId : String) (hs : st.PlayerSymbols userId ≠ none) :
    (assignSymbols now i l st).PlayerSymbols userId ≠ none := by
  cases hold : st.PlayerSymbols userId with
  | none => exact absurd hold hs
  | some symbol =>
    rw [assignSymbols_keeps now l i st userId symbol hold]
    exact Option.some_ne_none _

theorem assignSymbols_cover (now : Int) (l : List Presence) (i : Nat) (st : MatchState) :
    ∀ p ∈ l, (assignSymbols now i l st).PlayerSymbols p.userId ≠ none := by
  induction l generalizing i st with
  | nil => intro p hp; cases hp
  | cons player rest ih =>
    intro p hp
    unfold assignSymbols
    rcases List.mem_cons.mp hp with rfl | hp
    · exact assignSymbols_ne_none now rest (i + 1) _ _ (assignSymbol_has now i p st)
    · exact ih _ _ p hp

theorem assignSymbols_keys (now : Int) (l : List Presence) (i : Nat) (st : MatchState)
    (userId : String) (hs : (assignSymbols now i l st).PlayerSymbols userId ≠ none) :
    st.PlayerSymbols userId ≠ none ∨ ∃ p ∈ l, p.userId = userId := by
  induction l generalizing i st with
  | nil => exact Or.inl hs
  | cons player rest ih =>
    unfold assignSymbols at hs
    rcases ih _ _ hs with h | ⟨p, hp, h⟩
    · by_cases hid : userId = player.userId
      · exact Or.inr ⟨player, List.mem_cons_self _ _, hid.symm⟩
      · rw [assignSymbol_other now i player st userId hid] at h
        exact Or.inl h
    · exact Or.inr ⟨p, List.mem_cons_of_mem _ hp, h⟩

theorem assignSymbols_head (now : Int) (p : Presence) (rest : List Presence) (i : Nat)
    (st : MatchState) (hn : st.PlayerSymbols p.userId = none) :
    (assignSymbols now i (p :: rest) st).PlayerSymbols p.userId = some (symbolAt i) := by
  unfold assignSymbols
  exact assignSymbols_keeps now rest (i + 1) _ _ _ (assignSymbol_new now i p st hn)

theorem assignSymbols_second (now : Int) (p q : Presence) (rest : List Presence) (i : Nat)
    (st : MatchState) (hne : q.userId ≠ p.userId) (hn : st.PlayerSymbols q.userId = none) :
    (assignSymbols now i (p :: q :: rest) st).PlayerSymbols q.userId =
      some (symbolAt (i + 1)) := by
  unfold assignSymbols
  apply assignSymbols_head
  rw [assignSymbol_other now i p st q.userId hne]
  exact hn

theorem MatchJoin_symbols_eq (now : Int) (st : MatchState) (presences : List Presence) :
    (MatchJoin now (some st) presences).1.PlayerSymbols =
      (assignSymbols now 0 (st.Players ++ presences)
        { st with Players := st.Players ++ presences }).PlayerSymbols := by
  unfold MatchJoin getMatchState
  dsimp only
  rw [appendPresences_eq]

theorem applyOp_symbolsAssigned (st : MatchState) (op : Op) (h : SymbolsAssigned st) :
    SymbolsAssigned (applyOp st op) := by
  obtain ⟨hv, hc⟩ := h
  cases op with
  | join now presences =>
    unfold applyOp
    constructor
    · rw [MatchJoin_symbols_eq]
      exact assignSymbols_values now _ 0 _ hv
    · rw [MatchJoin_symbols_eq, MatchJoin_players]
      exact assignSymbols_cover now _ 0 _
  | leave presences =>
    unfold applyOp MatchLeave getMatchState
    constructor
    · rw [leaveLoop_symbols]
      exact hv
    · intro p hp
      rw [leaveLoop_symbols]
      exact hc p (leaveLoop_subset presences st p hp)
  | loop now tick messages =>
    unfold applyOp
    constructor
    · rw [MatchLoop_symbols]
      exact hv
    · rw [MatchLoop_symbols, MatchLoop_players]
      exact hc

theorem reachable_symbolsAssigned (m : Match) (params : StrMap ParamValue) (ops : List Op) :
    SymbolsAssigned (runOps (MatchInit m params).1 ops) := by
  induction ops using List.reverseRecOn with
  | nil =>
    constructor
    · intro userId symbol hs
      have : (newMatchState _).PlayerSymbols userId = some symbol := hs
      rw [newMatchState_symbols] at this
      cases this
    · intro p hp
      have : p ∈ (newMatchState _).Players := hp
      rw [newMatchState_players] at this
      cases this
  | append_singleton ops op ih =>
    rw [runOps_snoc]
    exact applyOp_symbolsAssigned _ op ih

theorem join_symbolsByOrder (now : Int) (st : MatchState) (presences : List Presence)
    (h : SymbolsByOrder st) : SymbolsByOrder (MatchJoin now (some st) presences).1 := by
  obtain ⟨hk, hx, ho⟩ := h
  refine ⟨?_, ?_, ?_⟩
  · intro userId hs
    rw [MatchJoin_symbols_eq] at hs
    rw [MatchJoin_players]
    rcases assignSymbols_keys now _ 0 _ userId hs with h1 | ⟨p, hp, h1⟩
    · obtain ⟨p, hp, h2⟩ := hk userId h1
      exact ⟨p, List.mem_append_left _ hp, h2⟩
    · exact ⟨p, hp, h1⟩
  · intro p rest hl
    rw [MatchJoin_players] at hl
    rw [MatchJoin_symbols_eq, hl]
    cases hold : st.Players with
    | nil =>
      have hn : st.PlayerSymbols p.userId = none := by
        by_contra hc
        obtain ⟨r, hr, -⟩ := hk _ hc
        rw [hold] at hr
        cases hr
      exact assignSymbols_head now p rest 0 _ hn
    | cons p0 t =>
      rw [hold, List.cons_append] at hl
      obtain ⟨rfl, -⟩ := List.cons.inj hl
      exact assignSymbols_keeps now _ 0 _ _ _ (hx p0 t hold)
  · intro p q rest hl hne
    rw [MatchJoin_players] at hl
    rw [MatchJoin_symbols_eq, hl]
    by_cases hq : st.PlayerSymbols q.userId = none
    · exact assignSymbols_second now p q rest 0 _ hne hq
    · obtain ⟨r, hr, hid⟩ := hk _ hq
      cases hold : st.Players with
      | nil =>
        rw [hold] at hr
        cases hr
      | cons p0 t =>
        cases t with
        | nil =>
          rw [hold, List.cons_append] at hl
          obtain ⟨rfl, -⟩ := List.cons.inj hl
          rw [hold] at hr
          rw [List.mem_singleton] at hr
          subst hr
          exact absurd hid.symm hne
        | cons q0 t2 =>
          rw [hold, List.cons_append, List.cons_append] at hl
          obtain ⟨rfl, hl2⟩ := List.cons.inj hl
          obtain ⟨rfl, -⟩ := List.cons.inj hl2
          exact assignSymbols_keeps now _ 0 _ _ _ (ho p0 q0 t2 hold hne)

theorem runOps_symbolsByOrder (m : Match) (params : StrMap ParamValue) (ops : List Op)
    (hno : ∀ op ∈ ops, op.isLeave = false) :
    SymbolsByOrder (runOps (MatchInit m params).1 ops) := by
  induction ops using List.reverseRecOn with
  | nil =>
    refine ⟨?_, ?_, ?_⟩
    · intro userId hs
      exact absurd (newMatchState_symbols _ userId) hs
    · intro p rest hl
      have : (newMatchState _).Players = p :: rest := hl
      rw [newMatchState_players] at this
      cases this
    · intro p q rest hl
      have : (newMatchState _).Players = p :: q :: rest := hl
      rw [newMatchState_players] at this
      cases this
  | append_singleton ops op ih =>
    rw [runOps_snoc]
    have ih2 := ih (fun o ho => hno o (List.mem_append_left _ ho))
    have hop := hno op (List.mem_append_right _ (List.mem_singleton_self _))
    cases op with
    | join now presences => exact join_symbolsByOrder now _ presences ih2
    | leave presences => cases hop
    | loop now tick messages =>
      unfold applyOp SymbolsByOrder
      rw [MatchLoop_symbols, MatchLoop_players]
      exact ih2

theorem distinct_of_symbolsByOrder (st : MatchState) (h : SymbolsByOrder st)
    (hlen : st.Players.length ≤ 2) : SymbolsDistinct st := by
  obtain ⟨-, hx, ho⟩ := h
  have hXO : (some "X" : Option String) ≠ some "O" := by decide
  intro p hp q hq hne
  cases hl : st.Players with
  | nil =>
    rw [hl] at hp
    cases hp
  | cons a t =>
    cases t with
    | nil =>
      rw [hl, List.mem_singleton] at hp hq
      exact absurd (hp.trans hq.symm ▸ rfl) hne
    | cons b t2 =>
      cases t2 with
      | cons c t3 =>
        rw [hl] at hlen
        simp at hlen
      | nil =>
        rw [hl] at hp hq
        simp only [List.mem_cons, List.mem_singleton, List.not_mem_nil, or_false] at hp hq
        rcases hp with rfl | rfl <;> rcases hq with rfl | rfl
        · exact absurd rfl hne
        · rw [hx _ _ hl, ho _ _ _ hl (Ne.symm hne)]
          exact hXO
        · rw [hx _ _ hl, ho _ _ _ hl hne]
          exact hXO.symm
        · exact absurd rfl hne

/-- C9, as stated, fails: when three players join a fresh match, symbols are
assigned and alice and carol, both in the roster, both hold X; and after alice
leaves a two-player match and carol joins, bob and carol both hold O. -/
theorem shared_symbol_counterexample :
    Reachable threeJoined ∧ ¬ SymbolInvariant threeJoined ∧
      Reachable rejoined ∧ ¬ SymbolInvariant rejoined := by
  refine ⟨⟨NewMatch, fun _ => none, _, rfl⟩, ?_, ⟨NewMatch, fun _ => none, _, rfl⟩, ?_⟩
  · rintro (h | ⟨-, h⟩)
    · exact absurd (h "alice") (by decide)
    · exact h alice (by decide) carol (by decide) (by decide) (by decide)
  · rintro (h | ⟨-, h⟩)
    · exact absurd (h "bob") (by decide)
    · exact h bob (by decide) carol (by decide) (by decide) (by decide)

/-- C9, amended: in every state reached from `MatchInit` through join, leave
and loop calls, every player in the roster has the symbol X or the symbol O;
and when the run has no `MatchLeave` call and the roster has at most two
entries, two players in the roster with different ids have different
symbols. -/
theorem present_players_have_symbols (m : Match) (params : StrMap ParamValue)
    (ops : List Op) :
    PresentHaveSymbol (runOps (MatchInit m params).1 ops) ∧
      ((∀ op ∈ ops, op.isLeave = false) →
        (runOps (MatchInit m params).1 ops).Players.length ≤ 2 →
        SymbolsDistinct (runOps (MatchInit m params).1 ops)) := by
  constructor
  · obtain ⟨hv, hc⟩ := reachable_symbolsAssigned m params ops
    intro p hp
    cases hs : (runOps (MatchInit m params).1 ops).PlayerSymbols p.userId with
    | none => exact absurd hs (hc p hp)
    | some symbol =>
      rcases hv _ _ hs with rfl | rfl
      · exact Or.inl rfl
      · exact Or.inr rfl
  · intro hno hlen
    exact distinct_of_symbolsByOrder _ (runOps_symbolsByOrder m params ops hno) hlen

/-! ## The board across host calls -/

theorem processMessageWith_board (lines : List (Fin 9 × Fin 9 × Fin 9)) (now : Int)
    (st : MatchState) (message : MatchData) (i : Fin 9) (hset : st.TicTacToe i ≠ "") :
    (processMessageWith lines now st message).state.TicTacToe i = st.TicTacToe i := by
  unfold processMessageWith
  cases message.action with
  | none => rfl
  | some action =>
    dsimp only
    split_ifs with h1 h2
    all_goals first
      | rfl
      | (have hne : i ≠ cellIndex action h1 := by
           rintro rfl
           exact hset (not_not.mp h2)
         first
           | exact Function.update_noteq hne _ _
           | (dsimp only
              rw [switchTurn_board]
              exact Function.update_noteq hne _ _))

theorem processMessages_board (now : Int) (messages : List MatchData) (st : MatchState)
    (i : Fin 9) (hset : st.TicTacToe i ≠ "") :
    (processMessages now st messages).1.TicTacToe i = st.TicTacToe i := by
  induction messages generalizing st with
  | nil => rfl
  | cons message rest ih =>
    have hstep := processMessageWith_board gameWin now st message i hset
    unfold processMessages
    dsimp only
    split_ifs
    · exact hstep
    · rw [ih (processMessage now st message).state (by
        unfold processMessage
        rw [hstep]
        exact hset)]
      exact hstep

theorem timerStep_board (now tick : Int) (st : MatchState) :
    (timerStep now tick st).state.TicTacToe = st.TicTacToe := by
  unfold timerStep
  dsimp only
  split_ifs <;> rfl

theorem MatchLoop_board (now tick : Int) (st : MatchState) (messages : List MatchData)
    (i : Fin 9) (hset : st.TicTacToe i ≠ "") :
    (MatchLoop now tick (some st) messages).1.TicTacToe i = st.TicTacToe i := by
  unfold MatchLoop getMatchState
  dsimp only
  split_ifs
  · rw [timerStep_board]
  · rw [processMessages_board now messages _ i (by rw [timerStep_board]; exact hset),
      timerStep_board]

theorem assignSymbol_board (now : Int) (i : Nat) (player : Presence) (st : MatchState) :
    (assignSymbol now i player st).TicTacToe = st.TicTacToe := by
  unfold assignSymbol
  dsimp only
  split_ifs <;> rfl

theorem assignSymbols_board (now : Int) (l : List Presence) (i : Nat) (st : MatchState) :
    (assignSymbols now i l st).TicTacToe = st.TicTacToe := by
  induction l generalizing i st with
  | nil => rfl
  | cons player rest ih =>
    unfold assignSymbols
    rw [ih, assignSymbol_board]

theorem MatchJoin_board (now : Int) (st : MatchState) (presences : List Presence) :
    (MatchJoin now (some st) presences).1.TicTacToe = st.TicTacToe := by
  unfold MatchJoin getMatchState
  dsimp only
  rw [assignSymbols_board]

theorem leaveLoop_board (presences : List Presence) (st : MatchState) :
    (leaveLoop st presences).1.TicTacToe = st.TicTacToe := by
  induction presences generalizing st with
  | nil => rfl
  | cons presence rest ih =>
    unfold leaveLoop
    dsimp only
    rw [ih]

theorem processMessage_accepted_board (now : Int) (st : MatchState) (message : MatchData)
    (action : Action)
    (h : ¬ (action.Row < 0 ∨ action.Row > 2 ∨ action.Col < 0 ∨ action.Col > 2))
    (hacc : Accepted st message action h) :
    (processMessage now st message).state.TicTacToe = boardAfter st message action h := by
  rw [processMessage_accepted now st message action h hacc]
  dsimp only
  split_ifs
  all_goals first
    | rfl
    | exact switchTurn_board _ _ _

/-- C11, as stated, fails: on a fresh match a move from a sender without a
symbol is accepted and writes the empty string, so the accepted move changes no
cell at all. -/
theorem accepted_move_changes_no_cell :
    Accepted classicInit strangerMove ⟨0, 0⟩ (by decide) ∧
      ∀ j, (processMessage 101 classicInit strangerMove).state.TicTacToe j =
        classicInit.TicTacToe j := by
  decide

/-- C11, amended: a join, leave or loop call leaves every non-empty board cell
with the value it had, so a cell, once set, is never cleared or overwritten;
and an accepted move of a sender that has a symbol changes exactly one cell,
the target cell. -/
theorem set_cells_persist (st : MatchState) (op : Op) :
    (∀ i, st.TicTacToe i ≠ "" → (applyOp st op).TicTacToe i = st.TicTacToe i) ∧
      ∀ (now : Int) (message : MatchData) (action : Action)
        (h : ¬ (action.Row < 0 ∨ action.Row > 2 ∨ action.Col < 0 ∨ action.Col > 2)),
        Accepted st message action h → symbolOf st message.userId ≠ "" →
        ∀ j, (processMessage now st message).state.TicTacToe j ≠ st.TicTacToe j ↔
          j = cellIndex action h := by
  constructor
  · intro i hset
    cases op with
    | join now presences =>
      unfold applyOp
      rw [MatchJoin_board]
    | leave presences =>
      unfold applyOp MatchLeave getMatchState
      rw [leaveLoop_board]
    | loop now tick messages => exact MatchLoop_board now tick st messages i hset
  · intro now message action h hacc hsym j
    rw [processMessage_accepted_board now st message action h hacc]
    unfold boardAfter
    constructor
    · intro hne
      by_contra hj
      exact hne (Function.update_noteq hj _ _)
    · rintro rfl
      rw [Function.update_same, hacc.2.1]
      exact hsym

/-! ## The first terminal event ends the tick -/

theorem processMessage_returned_events (now : Int) (st : MatchState) (message : MatchData) :
    ((processMessage now st message).returned = true →
        (processMessage now st message).state.GameEnded = true ∧
        ((processMessage now st message).events.filter Event.isResult).length = 1) ∧
      ((processMessage now st message).returned = false →
        (processMessage now st message).events.filter Event.isResult = []) := by
  unfold processMessage processMessageWith
  cases message.action with
  | none => simp [playerError, Event.isResult, Event.opcode]
  | some action =>
    dsimp only
    split_ifs <;> simp [playerError, Event.isResult, Event.opcode]

theorem processMessages_after_return (now : Int) (pre : List MatchData) (st s : MatchState)
    (m : MatchData) (post : List MatchData)
    (hpre : stateAfter now st pre = some s)
    (hm : (processMessage now s m).returned = true) :
    processMessages now st (pre ++ [m] ++ post) = processMessages now st (pre ++ [m]) ∧
      (processMessages now st (pre ++ [m])).1 = (processMessage now s m).state ∧
      ((processMessages now st (pre ++ [m])).2.filter Event.isResult).length = 1 := by
  induction pre generalizing st with
  | nil =>
    have hs : st = s := by
      unfold stateAfter at hpre
      exact Option.some.inj hpre
    subst hs
    simp only [List.nil_append, List.singleton_append]
    unfold processMessages
    simp only [hm, if_true]
    exact ⟨trivial, trivial, ((processMessage_returned_events now st m).1 hm).2⟩
  | cons a rest ih =>
    unfold stateAfter at hpre
    by_cases hr : (processMessage now st a).returned = true
    · rw [if_pos hr] at hpre
      cases hpre
    · rw [if_neg hr] at hpre
      obtain ⟨h1, h2, h3⟩ := ih _ hpre
      have hf : (processMessage now st a).returned = false := by
        simpa using hr
      simp only [List.cons_append]
      unfold processMessages
      simp only [hr, if_false, Bool.false_eq_true]
      refine ⟨?_, ?_, ?_⟩
      · rw [h1]
      · exact h2
      · rw [List.filter_append, (processMessage_returned_events now st a).2 hf,
          List.nil_append]
        exact h3

theorem timerStep_not_returned_events (now tick : Int) (st : MatchState)
    (ht : (timerStep now tick st).returned = false) :
    (timerStep now tick st).events.filter Event.isResult = [] := by
  revert ht
  unfold timerStep timeBroadcast
  dsimp only
  split_ifs <;> simp [Event.isResult, Event.opcode]

/-- C12: when the timer block lets the tick through, the messages `pre` are
processed without a return and the step for `m` ends the match (it returns, by
win or by draw), then `MatchLoop` on `pre ++ [m] ++ post` gives the same state
and the same effects as on `pre ++ [m]`: the final state is the state of the
step for `m`, with the match ended, so no message of `post` is applied, and the
effects hold exactly one result event. -/
theorem first_terminal_event_wins (now tick : Int) (st s : MatchState)
    (pre : List MatchData) (m : MatchData) (post : List MatchData)
    (ht : (timerStep now tick st).returned = false)
    (hpre : stateAfter now (timerStep now tick st).state pre = some s)
    (hm : (processMessage now s m).returned = true) :
    MatchLoop now tick (some st) (pre ++ [m] ++ post) =
        MatchLoop now tick (some st) (pre ++ [m]) ∧
      (MatchLoop now tick (some st) (pre ++ [m] ++ post)).1 = (processMessage now s m).state ∧
      (MatchLoop now tick (some st) (pre ++ [m] ++ post)).1.GameEnded = true ∧
      ((MatchLoop now tick (some st) (pre ++ [m] ++ post)).2.filter Event.isResult).length
        = 1 := by
  obtain ⟨h1, h2, h3⟩ := processMessages_after_return now pre _ s m post hpre hm
  have hloop : ∀ messages, MatchLoop now tick (some st) messages =
      ((processMessages now (timerStep now tick st).state messages).1,
        (timerStep now tick st).events ++
          (processMessages now (timerStep now tick st).state messages).2) := by
    intro messages
    unfold MatchLoop getMatchState
    simp only [ht, if_false, Bool.false_eq_true]
  rw [hloop, hloop, h1]
  refine ⟨rfl, h2, ?_, ?_⟩
  · dsimp only
    rw [h2]
    exact ((processMessage_returned_events now s m).1 hm).1
  · dsimp only
    rw [List.filter_append, timerStep_not_returned_events now tick st ht, List.nil_append]
    exact h3

/-! ## Expiry before queued moves -/

theorem timerStep_expired (now tick : Int) (st : MatchState)
    (hmode : st.GameMode = GameModeTimed) (hend : st.GameEnded = false)
    (hstart : st.CurrentTurnStart > 0)
    (hother : ∃ p ∈ st.Players, p.userId ≠ st.CurrentTurn)
    (hids : ∀ p ∈ st.Players, p.userId ≠ "")
    (hexp : now - st.CurrentTurnStart ≥ st.TurnTimeLimit) :
    (timerStep now tick st).returned = true ∧
      (timerStep now tick st).state.TicTacToe = st.TicTacToe ∧
      (timerStep now tick st).events.map Event.opcode = [8, 0] := by
  have hguard : st.GameMode = GameModeTimed ∧ st.CurrentTurnStart > 0 ∧ st.GameEnded = false :=
    ⟨hmode, hstart, hend⟩
  obtain ⟨p, hp, -, hw⟩ := timeoutWinner_other st hother
  have hw1 : timeoutWinner { st with TimeRemaining := st.TurnTimeLimit -
      (now - st.CurrentTurnStart) } = (p.userId, (st.PlayerSymbols p.userId).getD "") := hw
  have hcond : st.TurnTimeLimit - (now - st.CurrentTurnStart) ≤ 0 ∧
      (timeoutWinner { st with TimeRemaining := st.TurnTimeLimit -
        (now - st.CurrentTurnStart) }).1 ≠ "" := by
    rw [hw1]
    exact ⟨by omega, hids p hp⟩
  unfold timerStep
  rw [if_pos hguard]
  dsimp only
  rw [if_pos hcond]
  exact ⟨rfl, rfl, rfl⟩

/-- C13, as stated, fails: in a timed match that alice joined alone at time
100, the tick at time 200 finds her clock expired but no other roster member to
award the match to, so it goes on to the message loop and writes her queued
move into cell 0. -/
theorem expired_move_applied :
    aliceAlone.GameMode = GameModeTimed ∧ aliceAlone.GameEnded = false ∧
      aliceAlone.CurrentTurnStart > 0 ∧
      200 - aliceAlone.CurrentTurnStart ≥ aliceAlone.TurnTimeLimit ∧
      aliceAlone.TicTacToe 0 = "" ∧
      (MatchLoop 200 5 (some aliceAlone) [move "alice" 0 0]).1.TicTacToe 0 = "X" := by
  decide

/-- C13, amended: in a timed, not yet ended match whose turn clock runs and
whose roster (of players with non-empty ids) has a member other than the
turn-holder, a tick at which the clock is expired returns from the timer block:
its result is the same as with an empty batch, the board is as before, and its
effects are the timeout-result and the leaderboard record alone, so no message
of the batch is applied. -/
theorem expired_tick_applies_no_move (now tick : Int) (st : MatchState)
    (messages : List MatchData)
    (hmode : st.GameMode = GameModeTimed) (hend : st.GameEnded = false)
    (hstart : st.CurrentTurnStart > 0)
    (hother : ∃ p ∈ st.Players, p.userId ≠ st.CurrentTurn)
    (hids : ∀ p ∈ st.Players, p.userId ≠ "")
    (hexp : now - st.CurrentTurnStart ≥ st.TurnTimeLimit) :
    MatchLoop now tick (some st) messages = MatchLoop now tick (some st) [] ∧
      (MatchLoop now tick (some st) messages).1.TicTacToe = st.TicTacToe ∧
      (MatchLoop now tick (some st) messages).2.map Event.opcode = [8, 0] := by
  obtain ⟨h1, h2, h3⟩ := timerStep_expired now tick st hmode hend hstart hother hids hexp
  have hloop : ∀ batch, MatchLoop now tick (some st) batch =
      ((timerStep now tick st).state, (timerStep now tick st).events) := by
    intro batch
    unfold MatchLoop getMatchState
    simp only [h1, if_true]
  rw [hloop messages, hloop []]
  exact ⟨rfl, h2, h3⟩

/-! ## The leaderboard record -/

theorem switchTurn_mode (now : Int) (sender : String) (st : MatchState) :
    (switchTurn now sender st).GameMode = st.GameMode := by
  unfold switchTurn
  by_cases h2 : st.Players.length = 2
  · rw [if_pos h2]
    cases st.Players.find? (fun p => decide (p.userId ≠ sender)) <;> dsimp only <;>
      split_ifs <;> rfl
  · rw [if_neg h2]

theorem processMessageWith_mode (lines : List (Fin 9 × Fin 9 × Fin 9)) (now : Int)
    (st : MatchState) (message : MatchData) :
    (processMessageWith lines now st message).state.GameMode = st.GameMode := by
  unfold processMessageWith
  cases message.action with
  | none => rfl
  | some action =>
    dsimp only
    split_ifs <;> first | rfl | exact switchTurn_mode _ _ _

theorem processMessages_mode (now : Int) (messages : List MatchData) (st : MatchState) :
    (processMessages now st messages).1.GameMode = st.GameMode := by
  induction messages generalizing st with
  | nil => rfl
  | cons message rest ih =>
    unfold processMessages
    dsimp only
    split_ifs
    · exact processMessageWith_mode _ _ _ _
    · rw [ih]
      exact processMessageWith_mode _ _ _ _

theorem timerStep_mode (now tick : Int) (st : MatchState) :
    (timerStep now tick st).state.GameMode = st.GameMode := by
  unfold timerStep
  dsimp only
  split_ifs <;> rfl

theorem MatchLoop_mode (now tick : Int) (st : MatchState) (messages : List MatchData) :
    (MatchLoop now tick (some st) messages).1.GameMode = st.GameMode := by
  unfold MatchLoop getMatchState
  dsimp only
  split_ifs
  · exact timerStep_mode _ _ _
  · rw [processMessages_mode, timerStep_mode]

theorem timeoutWinner_symbol (st : MatchState) (hw : (timeoutWinner st).1 ≠ "") :
    (timeoutWinner st).2 = symbolOf st (timeoutWinner st).1 := by
  revert hw
  unfold timeoutWinner symbolOf
  cases st.Players.find? (fun p => decide (p.userId ≠ st.CurrentTurn)) with
  | none => intro hw; exact absurd rfl hw
  | some p => intro _; rfl

theorem processMessage_leaderboard (now : Int) (st : MatchState) (message : MatchData)
    (record : LeaderboardRecord)
    (hmem : Event.leaderboardWrite record ∈ (processMessage now st message).events) :
    (processMessage now st message).returned = true ∧
      record = writeToLeaderboard (processMessage now st message).state.Winner
        (symbolOf (processMessage now st message).state
          (processMessage now st message).state.Winner)
        (processMessage now st message).state := by
  revert hmem
  unfold processMessage processMessageWith
  cases message.action with
  | none => simp [playerError]
  | some action =>
    dsimp only
    split_ifs
    all_goals first
      | (intro hmem
         simp only [List.mem_cons, List.mem_singleton, List.not_mem_nil, or_false,
           reduceCtorEq, false_or, Event.leaderboardWrite.injEq] at hmem
         exact ⟨rfl, hmem⟩)
      | simp [playerError]

theorem processMessages_leaderboard (now : Int) (messages : List MatchData) (st : MatchState)
    (record : LeaderboardRecord)
    (hmem : Event.leaderboardWrite record ∈ (processMessages now st messages).2) :
    record = writeToLeaderboard (processMessages now st messages).1.Winner
      (symbolOf (processMessages now st messages).1 (processMessages now st messages).1.Winner)
      (processMessages now st messages).1 := by
  induction messages generalizing st with
  | nil =>
    unfold processMessages at hmem
    cases hmem
  | cons message rest ih =>
    unfold processMessages at hmem ⊢
    dsimp only at hmem ⊢
    by_cases hr : (processMessage now st message).returned = true
    · rw [if_pos hr] at hmem ⊢
      exact (processMessage_leaderboard now st message record hmem).2
    · rw [if_neg hr] at hmem ⊢
      rcases List.mem_append.mp hmem with h | h
      · exact absurd (processMessage_leaderboard now st message record h).1 hr
      · exact ih _ h

theorem timerStep_leaderboard (now tick : Int) (st : MatchState) (record : LeaderboardRecord)
    (hmem : Event.leaderboardWrite record ∈ (timerStep now tick st).events) :
    (timerStep now tick st).returned = true ∧
      record = writeToLeaderboard (timerStep now tick st).state.Winner
        (symbolOf (timerStep now tick st).state (timerStep now tick st).state.Winner)
        (timerStep now tick st).state := by
  revert hmem
  unfold timerStep timeBroadcast
  dsimp only
  split_ifs with h1 h2 h3
  · intro hmem
    simp only [List.mem_cons, List.mem_singleton, List.not_mem_nil, or_false,
      reduceCtorEq, false_or, Event.leaderboardWrite.injEq] at hmem
    refine ⟨rfl, ?_⟩
    rw [hmem, timeoutWinner_symbol _ h2.2]
    rfl
  · simp
  · simp
  · simp

/-- C14: the record `writeToLeaderboard` hands to the ranking store has score 2
when the mode of the match is timed and 1 otherwise, is owned by the winner id,
and carries the symbol, the mode and, in timed mode only, `TimeRemaining`; and
every record a tick writes, after a line or after a timeout, is this record for
the winner stored in the final state and the winner's symbol, in the mode the
match had before the tick. -/
theorem leaderboard_record_by_mode (winnerId symbol : String) (st : MatchState) :
    (writeToLeaderboard winnerId symbol st).score =
        (if st.GameMode = GameModeTimed then 2 else 1) ∧
      (writeToLeaderboard winnerId symbol st).ownerId = winnerId ∧
      (writeToLeaderboard winnerId symbol st).symbol = symbol ∧
      (writeToLeaderboard winnerId symbol st).mode = st.GameMode ∧
      (writeToLeaderboard winnerId symbol st).timeRemaining =
        (if st.GameMode = GameModeTimed then some st.TimeRemaining else none) ∧
      ∀ (now tick : Int) (messages : List MatchData) (record : LeaderboardRecord),
        Event.leaderboardWrite record ∈ (MatchLoop now tick (some st) messages).2 →
        record = writeToLeaderboard (MatchLoop now tick (some st) messages).1.Winner
            (symbolOf (MatchLoop now tick (some st) messages).1
              (MatchLoop now tick (some st) messages).1.Winner)
            (MatchLoop now tick (some st) messages).1 ∧
          (MatchLoop now tick (some st) messages).1.GameMode = st.GameMode ∧
          record.score = (if st.GameMode = GameModeTimed then 2 else 1) := by
  refine ⟨rfl, rfl, rfl, rfl, rfl, ?_⟩
  intro now tick messages record hmem
  have hrec : record = writeToLeaderboard (MatchLoop now tick (some st) messages).1.Winner
      (symbolOf (MatchLoop now tick (some st) messages).1
        (MatchLoop now tick (some st) messages).1.Winner)
      (MatchLoop now tick (some st) messages).1 := by
    revert hmem
    unfold MatchLoop getMatchState
    dsimp only
    by_cases ht : (timerStep now tick st).returned = true
    · rw [if_pos ht]
      intro hmem
      exact (timerStep_leaderboard now tick st record hmem).2
    · rw [if_neg ht]
      intro hmem
      rcases List.mem_append.mp hmem with h | h
      · exact absurd (timerStep_leaderboard now tick st record h).1 ht
      · exact processMessages_leaderboard now messages _ record h
  refine ⟨hrec, MatchLoop_mode now tick st messages, ?_⟩
  rw [hrec]
  show (if (MatchLoop now tick (some st) messages).1.GameMode = GameModeTimed then (2 : Int)
    else 1) = _
  rw [MatchLoop_mode]

/-! ## MatchInit -/

/-- C15, as stated, fails: created with the mode parameter "blitz", which is
neither "classic" nor "timed", a match whose default mode is classic starts in
the mode "blitz" and not in its default mode. -/
theorem unknown_mode_taken_as_is :
    blitzParams "game_mode" = some (ParamValue.str "blitz") ∧
      "blitz" ≠ GameModeClassic ∧ "blitz" ≠ GameModeTimed ∧
      NewMatch.gameMode = GameModeClassic ∧
      (MatchInit NewMatch blitzParams).1.GameMode = "blitz" ∧
      (MatchInit NewMatch blitzParams).1.GameMode ≠ NewMatch.gameMode :=
  ⟨rfl, by decide, by decide, rfl, rfl, by decide⟩

/-- C15, amended: `MatchInit` takes the mode from the parameter `game_mode`
whenever that parameter is a string, recognised or not, and takes the default
mode of the match when the parameter is absent or not a string; the state
starts with nine empty cells, an empty roster, an empty turn, `GameEnded`
false, and `TurnTimeLimit` is 30 exactly when the mode is timed. -/
theorem init_mode_and_state (m : Match) (params : StrMap ParamValue) :
    (∀ modeStr, params "game_mode" = some (ParamValue.str modeStr) →
        (MatchInit m params).1.GameMode = modeStr) ∧
      (params "game_mode" = none ∨ params "game_mode" = some ParamValue.other →
        (MatchInit m params).1.GameMode = m.gameMode) ∧
      (∀ i, (MatchInit m params).1.TicTacToe i = "") ∧
      (MatchInit m params).1.Players = [] ∧
      (MatchInit m params).1.CurrentTurn = "" ∧
      (MatchInit m params).1.GameEnded = false ∧
      (MatchInit m params).1.Winner = "" ∧
      ((MatchInit m params).1.TurnTimeLimit = 30 ↔
        (MatchInit m params).1.GameMode = GameModeTimed) := by
  have hstate : ∀ mode : GameMode,
      (newMatchState mode).GameMode = mode ∧ (∀ i, (newMatchState mode).TicTacToe i = "") ∧
      (newMatchState mode).Players = [] ∧ (newMatchState mode).CurrentTurn = "" ∧
      (newMatchState mode).GameEnded = false ∧ (newMatchState mode).Winner = "" ∧
      ((newMatchState mode).TurnTimeLimit = 30 ↔ (newMatchState mode).GameMode = GameModeTimed) := by
    intro mode
    unfold newMatchState
    dsimp only
    split_ifs with h
    · exact ⟨rfl, fun _ => rfl, rfl, rfl, rfl, rfl, fun _ => h, fun _ => rfl⟩
    · refine ⟨rfl, fun _ => rfl, rfl, rfl, rfl, rfl, fun h0 => ?_, fun h1 => absurd h1 h⟩
      exact absurd (show (0 : Int) = 30 from h0) (by decide)
  unfold MatchInit
  dsimp only
  obtain ⟨h1, h2, h3, h4, h5, h6, h7⟩ := hstate
    (match params "game_mode" with
      | some (ParamValue.str modeStr) => modeStr
      | _ => m.gameMode)
  refine ⟨?_, ?_, h2, h3, h4, h5, h6, h7⟩
  · intro modeStr hp
    rw [h1, hp]
  · rintro (hp | hp) <;> rw [h1, hp]

/-! ## Moves outside the grid -/

/-- C16: a decoded move whose row or column is outside `0..2`, negative values
included, is rejected before the board is read: the step's only effect is the
error "Out of bounds move" addressed to the sender's presence, the loop goes
on, and every field but the message buffer (board, turn and outcome among
them) is as before; and whenever the bounds check passes, the index
`row*3+col` the loop reads and writes lies in `0..8`. -/
theorem out_of_bounds_rejected (now : Int) (st : MatchState) (message : MatchData)
    (action : Action) (hdec : message.action = some action)
    (hout : action.Row < 0 ∨ action.Row > 2 ∨ action.Col < 0 ∨ action.Col > 2) :
    (processMessage now st message).events =
        [Event.error (findPresence st.Players message.userId) "Out of bounds move"] ∧
      (∀ p, findPresence st.Players message.userId = some p → p.userId = message.userId) ∧
      (processMessage now st message).returned = false ∧
      SameGame (processMessage now st message).state st ∧
      ∀ (a : Action) (h : ¬ (a.Row < 0 ∨ a.Row > 2 ∨ a.Col < 0 ∨ a.Col > 2)),
        0 ≤ a.Row * 3 + a.Col ∧ a.Row * 3 + a.Col ≤ 8 ∧
          ((cellIndex a h).val : Int) = a.Row * 3 + a.Col := by
  refine ⟨?_, fun p hp => findPresence_userId _ _ p hp, ?_, ?_, ?_⟩
  · unfold processMessage processMessageWith
    simp only [hdec, dif_pos hout, playerError]
  · unfold processMessage processMessageWith
    simp only [hdec, dif_pos hout]
  · unfold processMessage processMessageWith
    simp only [hdec, dif_pos hout, SameGame, and_self]
  · intro a h
    refine ⟨by omega, by omega, ?_⟩
    unfold cellIndex
    simp only
    omega

/-! ## MatchLeave -/

theorem removePlayer_sublist (userId : String) (l : List Presence) :
    (removePlayer userId l).Sublist l := by
  induction l with
  | nil => exact List.Sublist.refl _
  | cons p rest ih =>
    unfold removePlayer
    split_ifs
    · exact List.sublist_cons_self _ _
    · exact ih.cons₂ _

theorem removePlayer_eq_filter (userId : String) (l : List Presence)
    (hnd : (l.map Presence.userId).Nodup) :
    removePlayer userId l = l.filter (fun p => decide (p.userId ≠ userId)) := by
  induction l with
  | nil => rfl
  | cons p rest ih =>
    rw [List.map_cons, List.nodup_cons] at hnd
    obtain ⟨hp, hrest⟩ := hnd
    unfold removePlayer
    by_cases hid : p.userId = userId
    · rw [if_pos hid, List.filter_cons_of_neg (by simp [hid])]
      symm
      rw [List.filter_eq_self]
      intro a ha
      have hne : a.userId ≠ userId := by
        intro h
        apply hp
        rw [hid, ← h]
        exact List.mem_map_of_mem _ ha
      simp [hne]
    · rw [if_neg hid, List.filter_cons_of_pos (by simp [hid]), ih hrest]

theorem leaveLoop_sublist (presences : List Presence) (st : MatchState) :
    (leaveLoop st presences).1.Players.Sublist st.Players := by
  induction presences generalizing st with
  | nil => exact List.Sublist.refl _
  | cons presence rest ih =>
    unfold leaveLoop
    dsimp only
    exact (ih _).trans (removePlayer_sublist _ _)

theorem leaveLoop_outcome (presences : List Presence) (st : MatchState) :
    (leaveLoop st presences).1.GameEnded = st.GameEnded ∧
      (leaveLoop st presences).1.Winner = st.Winner := by
  induction presences generalizing st with
  | nil => exact ⟨rfl, rfl⟩
  | cons presence rest ih =>
    unfold leaveLoop
    dsimp only
    exact ih _

theorem leaveLoop_filter (presences : List Presence) (st : MatchState)
    (hnd : (st.Players.map Presence.userId).Nodup) :
    (leaveLoop st presences).1.Players =
      st.Players.filter (fun p => !presences.any (fun q => decide (q.userId = p.userId))) := by
  induction presences generalizing st with
  | nil => simp [leaveLoop]
  | cons presence rest ih =>
    unfold leaveLoop
    dsimp only
    have hnd2 : ((removePlayer presence.userId st.Players).map Presence.userId).Nodup :=
      hnd.sublist ((removePlayer_sublist _ _).map _)
    rw [ih { st with Players := removePlayer presence.userId st.Players } hnd2]
    dsimp only
    rw [removePlayer_eq_filter _ _ hnd, List.filter_filter]
    apply List.filter_congr
    intro p _
    by_cases h : presence.userId = p.userId
    · simp [h]
    · have h' : ¬ p.userId = presence.userId := fun e => h e.symm
      simp [h, h']

/-- C17, evaluated: in the match alice joined twice the roster holds two
entries with her id; when she leaves, `MatchLeave` removes the first of them
and stops, so an entry with the id of the leaving player stays in the
roster. -/
theorem duplicate_entry_survives_leave :
    Reachable joinedTwice ∧ joinedTwice.Players = [alice, alice] ∧
      (MatchLeave (some joinedTwice) [alice]).1.Players = [alice] ∧
      ∃ p ∈ (MatchLeave (some joinedTwice) [alice]).1.Players,
        ∃ q ∈ [alice], p.userId = q.userId :=
  ⟨⟨NewMatch, fun _ => none, _, rfl⟩, by decide, by decide, alice, by decide, alice,
    by decide, rfl⟩

/-- The frame of `MatchLeave`: what remains is a sublist of the roster (the
order is kept), and `PlayerSymbols`, the board, `CurrentTurn`, `GameEnded` and
`Winner` are as before; when no two roster entries share an id, the new roster
is the old one without the entries whose id is the id of a leaving player, so
no entry has such an id. -/
theorem leave_removes_first_entries (st : MatchState) (presences : List Presence) :
    (MatchLeave (some st) presences).1.Players.Sublist st.Players ∧
      (MatchLeave (some st) presences).1.PlayerSymbols = st.PlayerSymbols ∧
      (MatchLeave (some st) presences).1.TicTacToe = st.TicTacToe ∧
      (MatchLeave (some st) presences).1.CurrentTurn = st.CurrentTurn ∧
      (MatchLeave (some st) presences).1.GameEnded = st.GameEnded ∧
      (MatchLeave (some st) presences).1.Winner = st.Winner ∧
      ((st.Players.map Presence.userId).Nodup →
        (MatchLeave (some st) presences).1.Players =
            st.Players.filter
              (fun p => !presences.any (fun q => decide (q.userId = p.userId))) ∧
          ∀ p ∈ (MatchLeave (some st) presences).1.Players, ∀ q ∈ presences,
            p.userId ≠ q.userId) := by
  unfold MatchLeave getMatchState
  refine ⟨leaveLoop_sublist _ _, leaveLoop_symbols _ _, leaveLoop_board _ _,
    leaveLoop_turn _ _, (leaveLoop_outcome _ _).1, (leaveLoop_outcome _ _).2, ?_⟩
  intro hnd
  refine ⟨leaveLoop_filter presences st hnd, ?_⟩
  intro p hp q hq heq
  rw [leaveLoop_filter presences st hnd, List.mem_filter] at hp
  have hany : presences.any (fun q => decide (q.userId = p.userId)) = true :=
    List.any_eq_true.mpr ⟨q, hq, by simp [heq]⟩
  rw [hany] at hp
  exact absurd hp.2 (by decide)

/-! ## Joining two players -/

theorem assignSymbol_turn_set (now : Int) (i : Nat) (player : Presence) (st : MatchState)
    (hset : st.CurrentTurn ≠ "") :
    (assignSymbol now i player st).CurrentTurn = st.CurrentTurn := by
  unfold assignSymbol
  dsimp only
  split_ifs <;> rfl

theorem assignSymbols_turn_set (now : Int) (l : List Presence) (i : Nat) (st : MatchState)
    (hset : st.CurrentTurn ≠ "") :
    (assignSymbols now i l st).CurrentTurn = st.CurrentTurn := by
  induction l generalizing i st with
  | nil => rfl
  | cons player rest ih =>
    unfold assignSymbols
    have h1 := assignSymbol_turn_set now i player st hset
    rw [ih _ _ (by rw [h1]; exact hset), h1]

theorem join_two_in_one_call (mode : GameMode) (now : Int) (p1 p2 : Presence)
    (hne : p1.userId ≠ p2.userId) (h1 : p1.userId ≠ "") :
    JoinedTwo (newMatchState mode) (MatchJoin now (some (newMatchState mode)) [p1, p2]).1
      p1 p2 now := by
  have hne2 : ¬ p2.userId = p1.userId := fun e => hne e.symm
  have hX : symbolAt 0 = "X" := rfl
  have hO : symbolAt 1 = "O" := rfl
  by_cases hmode : mode = GameModeTimed
  · subst hmode
    refine ⟨?_, ?_, ?_, ?_, ?_⟩
    · rw [MatchJoin_players]
      rfl
    · intro userId
      simp [MatchJoin, getMatchState, newMatchState, appendPresences, assignSymbols,
        assignSymbol, hX, hO, h1, hne2, Function.update_apply]
      split_ifs <;> simp_all
    · simp [MatchJoin, getMatchState, newMatchState, appendPresences, assignSymbols,
        assignSymbol, h1, hne2, Function.update_apply]
    · intro _
      simp [MatchJoin, getMatchState, newMatchState, appendPresences, assignSymbols,
        assignSymbol, h1, hne2, Function.update_apply]
    · intro h
      exact absurd (by simp [newMatchState]) h
  · refine ⟨?_, ?_, ?_, ?_, ?_⟩
    · rw [MatchJoin_players]
      simp [newMatchState, hmode]
    · intro userId
      simp [MatchJoin, getMatchState, newMatchState, appendPresences, assignSymbols,
        assignSymbol, hX, hO, h1, hne2, hmode, Function.update_apply]
      split_ifs <;> simp_all
    · simp [MatchJoin, getMatchState, newMatchState, appendPresences, assignSymbols,
        assignSymbol, h1, hne2, hmode, Function.update_apply]
    · intro h
      exact absurd h (by simp [newMatchState, hmode])
    · intro _
      simp [MatchJoin, getMatchState, newMatchState, appendPresences, assignSymbols,
        assignSymbol, h1, hne2, hmode, Function.update_apply]

theorem join_two_in_two_calls (mode : GameMode) (now now2 : Int) (p1 p2 : Presence)
    (hne : p1.userId ≠ p2.userId) (h1 : p1.userId ≠ "") :
    JoinedTwo (newMatchState mode)
      (MatchJoin now2 (some (MatchJoin now (some (newMatchState mode)) [p1]).1) [p2]).1
      p1 p2 now := by
  have hne2 : ¬ p2.userId = p1.userId := fun e => hne e.symm
  have hX : symbolAt 0 = "X" := rfl
  have hO : symbolAt 1 = "O" := rfl
  by_cases hmode : mode = GameModeTimed
  · subst hmode
    refine ⟨?_, ?_, ?_, ?_, ?_⟩
    · rw [MatchJoin_players, MatchJoin_players]
      rfl
    · intro userId
      simp [MatchJoin, getMatchState, newMatchState, appendPresences, assignSymbols,
        assignSymbol, hX, hO, h1, hne2, Function.update_apply]
      split_ifs <;> simp_all
    · simp [MatchJoin, getMatchState, newMatchState, appendPresences, assignSymbols,
        assignSymbol, h1, hne2, Function.update_apply]
    · intro _
      simp [MatchJoin, getMatchState, newMatchState, appendPresences, assignSymbols,
        assignSymbol, h1, hne2, Function.update_apply]
    · intro h
      exact absurd (by simp [newMatchState]) h
  · refine ⟨?_, ?_, ?_, ?_, ?_⟩
    · rw [MatchJoin_players, MatchJoin_players]
      simp [newMatchState, hmode]
    · intro userId
      simp [MatchJoin, getMatchState, newMatchState, appendPresences, assignSymbols,
        assignSymbol, hX, hO, h1, hne2, hmode, Function.update_apply]
      split_ifs <;> simp_all
    · simp [MatchJoin, getMatchState, newMatchState, appendPresences, assignSymbols,
        assignSymbol, h1, hne2, hmode, Function.update_apply]
    · intro h
      exact absurd h (by simp [newMatchState, hmode])
    · intro _
      simp [MatchJoin, getMatchState, newMatchState, appendPresences, assignSymbols,
        assignSymbol, h1, hne2, hmode, Function.update_apply]

/-- C18: on the state `MatchInit` returns, joining `p1` and then `p2`, two
players with different ids (`p1` with a non-empty one), in one `MatchJoin`
call or in two successive calls, gives the roster `[p1, p2]`, the symbols X
for `p1` and O for `p2` and no other entry, and `CurrentTurn = p1`; in timed
mode the turn clock is started at the time `p1` joined, `TimeRemaining` being
`TurnTimeLimit`, and in any other mode the clock fields are untouched; and a
`MatchJoin` on a state whose `CurrentTurn` is set leaves it as it is. -/
theorem join_two_players (m : Match) (params : StrMap ParamValue) (now now2 : Int)
    (p1 p2 : Presence) (hne : p1.userId ≠ p2.userId) (h1 : p1.userId ≠ "") :
    JoinedTwo (MatchInit m params).1
        (MatchJoin now (some (MatchInit m params).1) [p1, p2]).1 p1 p2 now ∧
      JoinedTwo (MatchInit m params).1
        (MatchJoin now2 (some (MatchJoin now (some (MatchInit m params).1) [p1]).1) [p2]).1
        p1 p2 now ∧
      ∀ (st : MatchState) (t : Int) (presences : List Presence), st.CurrentTurn ≠ "" →
        (MatchJoin t (some st) presences).1.CurrentTurn = st.CurrentTurn := by
  refine ⟨join_two_in_one_call _ now p1 p2 hne h1,
    join_two_in_two_calls _ now now2 p1 p2 hne h1, ?_⟩
  intro st t presences hset
  unfold MatchJoin getMatchState
  exact assignSymbols_turn_set t _ 0 _ hset

/-! ## The turn switch -/

theorem switchTurn_two (now : Int) (sender : String) (st : MatchState)
    (h2 : st.Players.length = 2) :
    ((∃ p ∈ st.Players, p.userId ≠ sender) →
        ∃ p ∈ st.Players, p.userId ≠ sender ∧ (switchTurn now sender st).CurrentTurn = p.userId) ∧
      (st.GameMode = GameModeTimed →
        (switchTurn now sender st).CurrentTurnStart = now ∧
        (switchTurn now sender st).TimeRemaining = st.TurnTimeLimit) ∧
      (st.GameMode ≠ GameModeTimed →
        (switchTurn now sender st).CurrentTurnStart = st.CurrentTurnStart ∧
        (switchTurn now sender st).TimeRemaining = st.TimeRemaining) := by
  unfold switchTurn
  rw [if_pos h2]
  cases hf : st.Players.find? (fun p => decide (p.userId ≠ sender)) with
  | none =>
    dsimp only
    refine ⟨?_, ?_, ?_⟩
    · rintro ⟨p, hp, hne⟩
      have := List.find?_eq_none.mp hf p hp
      simp [hne] at this
    · intro hm
      rw [if_pos hm]
      exact ⟨rfl, rfl⟩
    · intro hm
      rw [if_neg hm]
      exact ⟨rfl, rfl⟩
  | some q =>
    have hq : q ∈ st.Players := List.mem_of_find?_eq_some hf
    have hne : q.userId ≠ sender := by
      have := List.find?_some hf
      simpa using this
    dsimp only
    refine ⟨?_, ?_, ?_⟩
    · intro _
      refine ⟨q, hq, hne, ?_⟩
      split_ifs <;> rfl
    · intro hm
      rw [if_pos hm]
      exact ⟨rfl, rfl⟩
    · intro hm
      rw [if_neg hm]
      exact ⟨rfl, rfl⟩

theorem processMessage_continues (now : Int) (st : MatchState) (message : MatchData)
    (action : Action)
    (h : ¬ (action.Row < 0 ∨ action.Row > 2 ∨ action.Col < 0 ∨ action.Col > 2))
    (hacc : Accepted st message action h)
    (hnowin : ¬ EightLines (boardAfter st message action h) (symbolOf st message.userId))
    (hnodraw : ∃ i, boardAfter st message action h i = "") :
    (processMessage now st message).returned = false ∧
      (processMessage now st message).state =
        switchTurn now message.userId
          { st with
            PlayerActions := Function.update st.PlayerActions message.userId (some message.data)
            TicTacToe := boardAfter st message action h } := by
  have hw : ¬ checkWin gameWin (boardAfter st message action h) (symbolOf st message.userId)
      = true := by
    rw [checkWin_gameWin_iff]
    exact hnowin
  have hd : ¬ isDraw (boardAfter st message action h) = true := by
    rw [isDraw_iff]
    obtain ⟨i, hi⟩ := hnodraw
    exact fun hall => hall i hi
  rw [processMessage_accepted now st message action h hacc]
  simp only [hw, hd, if_false, Bool.false_eq_true]
  exact ⟨trivial, trivial⟩

/-- The turn switch of one step: after an accepted move that ends neither in a
win nor in a draw the loop goes on; if the roster has exactly two entries, `CurrentTurn` becomes the
id of a roster member other than the sender (when there is one) and, in timed
mode, the turn clock is restarted (`CurrentTurnStart = now`,
`TimeRemaining = TurnTimeLimit`); if the roster does not have exactly two
entries, `CurrentTurn` and the turn clock are as before. -/
theorem turn_switch_after_move (now : Int) (st : MatchState) (message : MatchData)
    (action : Action)
    (h : ¬ (action.Row < 0 ∨ action.Row > 2 ∨ action.Col < 0 ∨ action.Col > 2))
    (hacc : Accepted st message action h)
    (hnowin : ¬ EightLines (boardAfter st message action h) (symbolOf st message.userId))
    (hnodraw : ∃ i, boardAfter st message action h i = "") :
    (processMessage now st message).returned = false ∧
      (st.Players.length = 2 →
        ((∃ p ∈ st.Players, p.userId ≠ message.userId) →
          ∃ p ∈ st.Players, p.userId ≠ message.userId ∧
            (processMessage now st message).state.CurrentTurn = p.userId) ∧
        (st.GameMode = GameModeTimed →
          (processMessage now st message).state.CurrentTurnStart = now ∧
          (processMessage now st message).state.TimeRemaining = st.TurnTimeLimit) ∧
        (st.GameMode ≠ GameModeTimed →
          (processMessage now st message).state.CurrentTurnStart = st.CurrentTurnStart ∧
          (processMessage now st message).state.TimeRemaining = st.TimeRemaining)) ∧
      (st.Players.length ≠ 2 →
        (processMessage now st message).state.CurrentTurn = st.CurrentTurn ∧
        (processMessage now st message).state.CurrentTurnStart = st.CurrentTurnStart ∧
        (processMessage now st message).state.TimeRemaining = st.TimeRemaining) := by
  obtain ⟨hret, hstate⟩ := processMessage_continues now st message action h hacc hnowin hnodraw
  rw [hstate]
  refine ⟨hret, ?_, ?_⟩
  · intro h2
    exact switchTurn_two now message.userId
      { st with
        PlayerActions := Function.update st.PlayerActions message.userId (some message.data)
        TicTacToe := boardAfter st message action h } h2
  · intro h2
    unfold switchTurn
    rw [if_neg h2]
    exact ⟨rfl, rfl, rfl⟩

/-! ## The outcome reporter across ticks -/

/-- C20, evaluated: in the classic match of `winOps` alice completes the top
row and the ranking store is called once; on the next tick the ended match
accepts her move into cell 8, finds the same row again and calls the ranking
store a second time. -/
theorem reporter_invoked_twice :
    (runOps classicInit winOps).GameEnded = true ∧
      (runOps classicInit winOps).Winner = "alice" ∧
      ((runEvents classicInit winOps).filter Event.isLeaderboardWrite).length = 1 ∧
      ((runEvents classicInit (winOps ++ [Op.loop 106 6 [move "alice" 2 2]])).filter
        Event.isLeaderboardWrite).length = 2 := by
  decide

/-! ## The time remaining -/

theorem switchTurn_clock (now : Int) (sender : String) (st : MatchState)
    (hc : ClockConsistent now st) : ClockConsistent now (switchTurn now sender st) := by
  unfold ClockConsistent at hc ⊢
  unfold switchTurn
  by_cases h2 : st.Players.length = 2
  · rw [if_pos h2]
    cases st.Players.find? (fun p => decide (p.userId ≠ sender)) <;> dsimp only <;>
      split_ifs <;> (try dsimp only) <;> omega
  · rw [if_neg h2]
    exact hc

theorem switchTurn_limit (now : Int) (sender : String) (st : MatchState) :
    (switchTurn now sender st).TurnTimeLimit = st.TurnTimeLimit := by
  unfold switchTurn
  by_cases h2 : st.Players.length = 2
  · rw [if_pos h2]
    cases st.Players.find? (fun p => decide (p.userId ≠ sender)) <;> dsimp only <;>
      split_ifs <;> rfl
  · rw [if_neg h2]

theorem processMessageWith_clock (lines : List (Fin 9 × Fin 9 × Fin 9)) (now : Int)
    (st : MatchState) (message : MatchData) (hc : ClockConsistent now st) :
    ClockConsistent now (processMessageWith lines now st message).state := by
  unfold processMessageWith
  cases message.action with
  | none => exact hc
  | some action =>
    dsimp only
    split_ifs
    all_goals first
      | exact hc
      | exact switchTurn_clock now _ _ hc

theorem processMessageWith_limit (lines : List (Fin 9 × Fin 9 × Fin 9)) (now : Int)
    (st : MatchState) (message : MatchData) :
    (processMessageWith lines now st message).state.TurnTimeLimit = st.TurnTimeLimit := by
  unfold processMessageWith
  cases message.action with
  | none => rfl
  | some action =>
    dsimp only
    split_ifs <;> first | rfl | exact switchTurn_limit _ _ _

theorem processMessages_clock (now : Int) (messages : List MatchData) (st : MatchState)
    (hc : ClockConsistent now st) :
    ClockConsistent now (processMessages now st messages).1 := by
  induction messages generalizing st with
  | nil => exact hc
  | cons message rest ih =>
    have hstep := processMessageWith_clock gameWin now st message hc
    unfold processMessages
    dsimp only
    split_ifs
    · exact hstep
    · exact ih _ hstep

theorem processMessages_limit (now : Int) (messages : List MatchData) (st : MatchState) :
    (processMessages now st messages).1.TurnTimeLimit = st.TurnTimeLimit := by
  induction messages generalizing st with
  | nil => rfl
  | cons message rest ih =>
    unfold processMessages
    dsimp only
    split_ifs
    · exact processMessageWith_limit _ _ _ _
    · rw [ih]
      exact processMessageWith_limit _ _ _ _

theorem processMessage_no_timeUpdate (now : Int) (st : MatchState) (message : MatchData)
    (t : Int) (turn : String) :
    Event.timeUpdate t turn ∉ (processMessage now st message).events := by
  unfold processMessage processMessageWith
  cases message.action with
  | none => simp [playerError]
  | some action =>
    dsimp only
    split_ifs <;> simp [playerError]

theorem processMessages_no_timeUpdate (now : Int) (messages : List MatchData)
    (st : MatchState) (t : Int) (turn : String) :
    Event.timeUpdate t turn ∉ (processMessages now st messages).2 := by
  induction messages generalizing st with
  | nil =>
    unfold processMessages
    simp
  | cons message rest ih =>
    unfold processMessages
    dsimp only
    split_ifs
    · exact processMessage_no_timeUpdate now st message t turn
    · intro hmem
      rcases List.mem_append.mp hmem with h | h
      · exact processMessage_no_timeUpdate now st message t turn h
      · exact ih _ h

theorem timerStep_running (now tick : Int) (st : MatchState)
    (hmode : st.GameMode = GameModeTimed) (hend : st.GameEnded = false)
    (hstart : st.CurrentTurnStart > 0) :
    ClockConsistent now (timerStep now tick st).state ∧
      (timerStep now tick st).state.TurnTimeLimit = st.TurnTimeLimit ∧
      (timerStep now tick st).state.CurrentTurnStart = st.CurrentTurnStart ∧
      ∀ t turn, Event.timeUpdate t turn ∈ (timerStep now tick st).events →
        t = st.CurrentTurnStart + st.TurnTimeLimit - now := by
  have hguard : st.GameMode = GameModeTimed ∧ st.CurrentTurnStart > 0 ∧ st.GameEnded = false :=
    ⟨hmode, hstart, hend⟩
  unfold ClockConsistent timerStep timeBroadcast
  rw [if_pos hguard]
  dsimp only
  split_ifs
  · refine ⟨by dsimp only; omega, rfl, rfl, ?_⟩
    intro t turn hmem
    simp at hmem
  · refine ⟨by dsimp only; omega, rfl, rfl, ?_⟩
    intro t turn hmem
    simp only [List.mem_singleton, Event.timeUpdate.injEq] at hmem
    rw [hmem.1]
    omega
  · refine ⟨by dsimp only; omega, rfl, rfl, ?_⟩
    intro t turn hmem
    simp at hmem

/-- C21, as stated, fails: in the timed match `timedMidGame`, whose turn clock
was started at time 104 with a limit of 30, the tick at time 200 stores the
time remaining -66 and writes -66 into the leaderboard record of the timeout,
where `max(0, CurrentTurnStart + TurnTimeLimit - now)` is 0; and in the match
alice joined alone the tick at time 200 broadcasts the time remaining -70. -/
theorem negative_time_remaining :
    timedMidGame.GameMode = GameModeTimed ∧ timedMidGame.GameEnded = false ∧
      timedMidGame.CurrentTurnStart = 104 ∧ timedMidGame.TurnTimeLimit = 30 ∧
      max 0 (timedMidGame.CurrentTurnStart + timedMidGame.TurnTimeLimit - 200) = 0 ∧
      (MatchLoop 200 5 (some timedMidGame) []).1.TimeRemaining = -66 ∧
      Event.leaderboardWrite
          { leaderboardId := "TicTacToeLeaderboard", ownerId := "bob", username := "Bob",
            score := 2, subscore := 0, symbol := "O", mode := GameModeTimed,
            timeRemaining := some (-66) } ∈
        (MatchLoop 200 5 (some timedMidGame) []).2 ∧
      aliceAlone.GameEnded = false ∧ aliceAlone.CurrentTurnStart = 100 ∧
      Event.timeUpdate (-70) "alice" ∈ (MatchLoop 200 10 (some aliceAlone) []).2 :=
  ⟨by decide, by decide, by decide, by decide, by decide, by decide,
    List.mem_cons_of_mem _ (List.mem_singleton.mpr rfl), by decide, by decide,
    List.mem_singleton.mpr rfl⟩

/-- C21, amended: in timed mode, after a tick at time `now` on a not yet ended
state whose turn clock runs, the stored time remaining is
`CurrentTurnStart + TurnTimeLimit - now` for the clock fields of the state
after the tick, without a lower bound of 0 (so it is negative once the clock
has run over); every periodic time broadcast of the tick carries
`CurrentTurnStart + TurnTimeLimit - now` for the clock at the start of the
tick, and every leaderboard record of the tick carries the stored value. -/
theorem time_remaining_unclamped (now tick : Int) (st : MatchState)
    (messages : List MatchData)
    (hmode : st.GameMode = GameModeTimed) (hend : st.GameEnded = false)
    (hstart : st.CurrentTurnStart > 0) :
    (MatchLoop now tick (some st) messages).1.TimeRemaining =
        (MatchLoop now tick (some st) messages).1.CurrentTurnStart +
          (MatchLoop now tick (some st) messages).1.TurnTimeLimit - now ∧
      (MatchLoop now tick (some st) messages).1.TurnTimeLimit = st.TurnTimeLimit ∧
      (∀ t turn, Event.timeUpdate t turn ∈ (MatchLoop now tick (some st) messages).2 →
        t = st.CurrentTurnStart + st.TurnTimeLimit - now) ∧
      (∀ record, Event.leaderboardWrite record ∈ (MatchLoop now tick (some st) messages).2 →
        record.timeRemaining = some (MatchLoop now tick (some st) messages).1.TimeRemaining) ∧
      (now - st.CurrentTurnStart > st.TurnTimeLimit →
        (timerStep now tick st).state.TimeRemaining < 0) := by
  obtain ⟨hc, hl, hs, hev⟩ := timerStep_running now tick st hmode hend hstart
  have hrec : ∀ record,
      Event.leaderboardWrite record ∈ (MatchLoop now tick (some st) messages).2 →
      record = writeToLeaderboard (MatchLoop now tick (some st) messages).1.Winner
        (symbolOf (MatchLoop now tick (some st) messages).1
          (MatchLoop now tick (some st) messages).1.Winner)
        (MatchLoop now tick (some st) messages).1 := by
    intro record
    unfold MatchLoop getMatchState
    dsimp only
    by_cases ht : (timerStep now tick st).returned = true
    · rw [if_pos ht]
      intro hmem
      exact (timerStep_leaderboard now tick st record hmem).2
    · rw [if_neg ht]
      intro hmem
      rcases List.mem_append.mp hmem with h | h
      · exact absurd (timerStep_leaderboard now tick st record h).1 ht
      · exact processMessages_leaderboard now messages _ record h
  refine ⟨?_, ?_, ?_, ?_, ?_⟩
  · unfold MatchLoop getMatchState
    dsimp only
    split_ifs
    · exact hc
    · exact processMessages_clock now messages _ hc
  · unfold MatchLoop getMatchState
    dsimp only
    split_ifs
    · exact hl
    · rw [processMessages_limit]
      exact hl
  · intro t turn
    unfold MatchLoop getMatchState
    dsimp only
    split_ifs
    · exact hev t turn
    · intro hmem
      rcases List.mem_append.mp hmem with h | h
      · exact hev t turn h
      · exact absurd h (processMessages_no_timeUpdate now messages _ t turn)
  · intro record hmem
    rw [hrec record hmem]
    show (if (MatchLoop now tick (some st) messages).1.GameMode = GameModeTimed then
      some (MatchLoop now tick (some st) messages).1.TimeRemaining else none) = _
    rw [MatchLoop_mode, if_pos hmode]
  · intro hover
    have hcc : (timerStep now tick st).state.TimeRemaining =
        (timerStep now tick st).state.CurrentTurnStart +
          (timerStep now tick st).state.TurnTimeLimit - now := hc
    rw [hcc, hl, hs]
    omega

/-! ## A move before anyone has joined -/

theorem newMatchState_board (mode : GameMode) : (newMatchState mode).TicTacToe = fun _ => "" := by
  unfold newMatchState
  dsimp only
  split_ifs <;> rfl

theorem newMatchState_clock (mode : GameMode) : (newMatchState mode).CurrentTurnStart = 0 := by
  unfold newMatchState
  dsimp only
  split_ifs <;> rfl

theorem fresh_move_step (mode : GameMode) (now : Int) (message : MatchData) (action : Action)
    (h : ¬ (action.Row < 0 ∨ action.Row > 2 ∨ action.Col < 0 ∨ action.Col > 2))
    (hdec : message.action = some action) :
    Accepted (newMatchState mode) message action h ∧
      symbolOf (newMatchState mode) message.userId = "" ∧
      boardAfter (newMatchState mode) message action h = (fun _ => "") ∧
      (processMessage now (newMatchState mode) message).returned = true ∧
      (processMessage now (newMatchState mode) message).state.GameEnded = true ∧
      (processMessage now (newMatchState mode) message).state.Winner = message.userId ∧
      (processMessage now (newMatchState mode) message).state.TicTacToe = (fun _ => "") ∧
      (processMessage now (newMatchState mode) message).events.map Event.opcode = [5, 0] ∧
      ∃ text gameMode, Event.win text message.userId (fun _ => "") gameMode ∈
        (processMessage now (newMatchState mode) message).events := by
  have hacc : Accepted (newMatchState mode) message action h := by
    refine ⟨hdec, ?_, Or.inl (newMatchState_turn mode)⟩
    rw [newMatchState_board]
  have hsym : symbolOf (newMatchState mode) message.userId = "" := by
    unfold symbolOf
    rw [newMatchState_symbols]
    rfl
  have hboard : boardAfter (newMatchState mode) message action h = (fun _ => "") := by
    unfold boardAfter
    rw [hsym, newMatchState_board]
    funext i
    rw [Function.update_apply]
    split_ifs <;> rfl
  have hwin : checkWin gameWin (fun _ => "") "" = true := by decide
  refine ⟨hacc, hsym, hboard, ?_⟩
  rw [processMessage_accepted now (newMatchState mode) message action h hacc]
  simp only [hboard, hsym, hwin, if_true]
  exact ⟨trivial, trivial, trivial, trivial, rfl, _, _, List.mem_cons_self _ _⟩

/-- C22: on the state `MatchInit` returns, where no player has joined
(`CurrentTurn` empty, no symbol assigned, empty roster), a tick with a single
decoded in-bounds move from any user id `u` accepts the move, writes the empty
string into the cell because the sender has no symbol, and takes the win
branch: the effects are the win-result naming `u` and the leaderboard record,
and the match is ended with `Winner = u` while every board cell is empty. -/
theorem move_before_join_wins (m : Match) (params : StrMap ParamValue) (now tick : Int)
    (u data : String) (action : Action)
    (h : ¬ (action.Row < 0 ∨ action.Row > 2 ∨ action.Col < 0 ∨ action.Col > 2)) :
    (MatchInit m params).1.CurrentTurn = "" ∧
      (∀ userId, (MatchInit m params).1.PlayerSymbols userId = none) ∧
      (MatchInit m params).1.Players = [] ∧
      Accepted (MatchInit m params).1 ⟨u, data, some action⟩ action h ∧
      symbolOf (MatchInit m params).1 u = "" ∧
      WinBranch (processMessage now (MatchInit m params).1 ⟨u, data, some action⟩) u
        (fun _ => "") ∧
      (MatchLoop now tick (some (MatchInit m params).1) [⟨u, data, some action⟩]).1.GameEnded
        = true ∧
      (MatchLoop now tick (some (MatchInit m params).1) [⟨u, data, some action⟩]).1.Winner
        = u ∧
      (∀ i, (MatchLoop now tick (some (MatchInit m params).1)
        [⟨u, data, some action⟩]).1.TicTacToe i = "") ∧
      (MatchLoop now tick (some (MatchInit m params).1) [⟨u, data, some action⟩]).2.map
        Event.opcode = [5, 0] := by
  unfold MatchInit
  dsimp only
  generalize (match params "game_mode" with
    | some (ParamValue.str modeStr) => modeStr
    | _ => m.gameMode) = mode
  obtain ⟨hacc, hsym, -, hret, hended, hwinner, hb, hops, hev⟩ :=
    fresh_move_step mode now ⟨u, data, some action⟩ action h rfl
  have htimer : timerStep now tick (newMatchState mode) = ⟨newMatchState mode, [], false⟩ := by
    unfold timerStep
    rw [if_neg]
    rintro ⟨-, hgt, -⟩
    rw [newMatchState_clock] at hgt
    exact absurd hgt (by decide)
  have hloop : MatchLoop now tick (some (newMatchState mode)) [⟨u, data, some action⟩] =
      ((processMessage now (newMatchState mode) ⟨u, data, some action⟩).state,
        (processMessage now (newMatchState mode) ⟨u, data, some action⟩).events) := by
    unfold MatchLoop getMatchState
    simp only [htimer, Bool.false_eq_true, if_false, List.nil_append]
    unfold processMessages
    simp only [hret, if_true]
  rw [hloop]
  refine ⟨newMatchState_turn mode, newMatchState_symbols mode, newMatchState_players mode,
    hacc, hsym, ⟨hret, hended, hwinner, hb, hev⟩, hended, hwinner, ?_, hops⟩
  intro i
  dsimp only
  rw [hb]

/-! ## Witnesses for the message loop -/

set_option maxRecDepth 8000

theorem win_branch_iff_line_witness :
    Accepted midGame (move "alice" 0 2) ⟨0, 2⟩ (by decide) ∧
      ((WinBranch (processMessage 105 midGame (move "alice" 0 2)) "alice"
            (boardAfter midGame (move "alice" 0 2) ⟨0, 2⟩ (by decide)) ↔
          EightLines (boardAfter midGame (move "alice" 0 2) ⟨0, 2⟩ (by decide))
            (symbolOf midGame "alice")) ∧
        ∀ lines : List (Fin 9 × Fin 9 × Fin 9), lines.Perm gameWin →
          processMessageWith lines 105 midGame (move "alice" 0 2) =
            processMessage 105 midGame (move "alice" 0 2)) :=
  ⟨by decide, win_branch_iff_line 105 midGame (move "alice" 0 2) ⟨0, 2⟩ (by decide) (by decide)⟩

theorem draw_when_full_without_line_witness :
    Accepted lastMove (move "alice" 2 2) ⟨2, 2⟩ (by decide) ∧
      (∀ i, boardAfter lastMove (move "alice" 2 2) ⟨2, 2⟩ (by decide) i ≠ "") ∧
      NoLine (boardAfter lastMove (move "alice" 2 2) ⟨2, 2⟩ (by decide)) ∧
      (processMessage 109 lastMove (move "alice" 2 2)).events =
        [ Event.draw ("It's a draw in " ++ lastMove.GameMode ++ " mode!")
            (boardAfter lastMove (move "alice" 2 2) ⟨2, 2⟩ (by decide)) lastMove.GameMode ] :=
  ⟨by decide, by decide, by decide,
    (draw_when_full_without_line 109 lastMove (move "alice" 2 2) ⟨2, 2⟩ (by decide)
      (by decide) (by decide) (by decide)).1.2.1⟩

theorem occupied_cell_rejected_witness :
    (move "bob" 0 0).action = some ⟨0, 0⟩ ∧
      midGame.TicTacToe (cellIndex ⟨0, 0⟩ (by decide)) ≠ "" ∧
      (processMessage 105 midGame (move "bob" 0 0)).events =
        [Event.error (findPresence midGame.Players "bob") "Cell already occupied"] ∧
      SameGame (processMessage 105 midGame (move "bob" 0 0)).state midGame :=
  ⟨rfl, by decide,
    (occupied_cell_rejected 105 midGame (move "bob" 0 0) ⟨0, 0⟩ (by decide) rfl (by decide)).1,
    (occupied_cell_rejected 105 midGame (move "bob" 0 0) ⟨0, 0⟩ (by decide) rfl
      (by decide)).2.2.2⟩

theorem not_your_turn_rejected_witness :
    midGame.CurrentTurn ≠ "" ∧ midGame.CurrentTurn ≠ (move "bob" 0 2).userId ∧
      (processMessage 105 midGame (move "bob" 0 2)).returned = false ∧
      SameGame (processMessage 105 midGame (move "bob" 0 2)).state midGame :=
  ⟨by decide, by decide,
    (not_your_turn_rejected 105 midGame (move "bob" 0 2) (by decide) (by decide)).2.2⟩

theorem timeout_forfeit_witness :
    timedMidGame.GameMode = GameModeTimed ∧ timedMidGame.GameEnded = false ∧
      timedMidGame.CurrentTurnStart > 0 ∧
      (∃ p ∈ timedMidGame.Players, p.userId ≠ timedMidGame.CurrentTurn) ∧
      (∀ p ∈ timedMidGame.Players, p.userId ≠ "") ∧
      (200 - timedMidGame.CurrentTurnStart ≥ timedMidGame.TurnTimeLimit →
        (MatchLoop 200 5 (some timedMidGame) [move "alice" 0 2]).1.GameEnded = true) ∧
      (120 - timedMidGame.CurrentTurnStart < timedMidGame.TurnTimeLimit →
        (timerStep 120 5 timedMidGame).returned = false) :=
  ⟨by decide, by decide, by decide, by decide, by decide,
    fun hexp => ((timeout_forfeit 200 5 timedMidGame [move "alice" 0 2] (by decide) (by decide)
      (by decide) (by decide) (by decide)).1 hexp).1,
    fun hlt => ((timeout_forfeit 120 5 timedMidGame [move "alice" 0 2] (by decide) (by decide)
      (by decide) (by decide) (by decide)).2 hlt).1⟩

theorem symbol_entry_stable_witness :
    midGame.PlayerSymbols "alice" = some "X" ∧
      (runOps midGame [Op.leave [alice], Op.join 300 [alice, alice], Op.loop 301 9 []]).PlayerSymbols
        "alice" = some "X" :=
  ⟨by decide,
    symbol_entry_stable midGame [Op.leave [alice], Op.join 300 [alice, alice], Op.loop 301 9 []]
      "alice" "X" (by decide)⟩

theorem present_players_have_symbols_witness :
    (∀ op ∈ [Op.join 100 [alice], Op.loop 101 1 [move "alice" 1 1], Op.join 102 [bob]],
        op.isLeave = false) ∧
      (runOps (MatchInit NewMatch (fun _ => none)).1
        [Op.join 100 [alice], Op.loop 101 1 [move "alice" 1 1], Op.join 102 [bob]]).Players.length
          ≤ 2 ∧
      SymbolsDistinct (runOps (MatchInit NewMatch (fun _ => none)).1
        [Op.join 100 [alice], Op.loop 101 1 [move "alice" 1 1], Op.join 102 [bob]]) :=
  ⟨by decide, by decide,
    (present_players_have_symbols NewMatch (fun _ => none)
      [Op.join 100 [alice], Op.loop 101 1 [move "alice" 1 1], Op.join 102 [bob]]).2
      (by decide) (by decide)⟩

theorem set_cells_persist_witness :
    Accepted midGame (move "alice" 2 2) ⟨2, 2⟩ (by decide) ∧
      symbolOf midGame "alice" ≠ "" ∧
      ∀ j, (processMessage 105 midGame (move "alice" 2 2)).state.TicTacToe j ≠
          midGame.TicTacToe j ↔ j = cellIndex ⟨2, 2⟩ (by decide) :=
  ⟨by decide, by decide,
    (set_cells_persist midGame (Op.leave [])).2 105 (move "alice" 2 2) ⟨2, 2⟩ (by decide)
      (by decide) (by decide)⟩

theorem first_terminal_event_wins_witness :
    (timerStep 105 5 midGame).returned = false ∧
      stateAfter 105 (timerStep 105 5 midGame).state [move "bob" 2 2] =
        some (processMessage 105 midGame (move "bob" 2 2)).state ∧
      (processMessage 105 (processMessage 105 midGame (move "bob" 2 2)).state
        (move "alice" 0 2)).returned = true ∧
      MatchLoop 105 5 (some midGame)
          ([move "bob" 2 2] ++ [move "alice" 0 2] ++ [move "bob" 2 2, move "alice" 2 1]) =
        MatchLoop 105 5 (some midGame) ([move "bob" 2 2] ++ [move "alice" 0 2]) :=
  ⟨by decide, rfl, by decide,
    (first_terminal_event_wins 105 5 midGame
      (processMessage 105 midGame (move "bob" 2 2)).state [move "bob" 2 2] (move "alice" 0 2)
      [move "bob" 2 2, move "alice" 2 1] (by decide) rfl (by decide)).1⟩

theorem expired_tick_applies_no_move_witness :
    timedMidGame.GameMode = GameModeTimed ∧ timedMidGame.GameEnded = false ∧
      timedMidGame.CurrentTurnStart > 0 ∧
      (∃ p ∈ timedMidGame.Players, p.userId ≠ timedMidGame.CurrentTurn) ∧
      (∀ p ∈ timedMidGame.Players, p.userId ≠ "") ∧
      200 - timedMidGame.CurrentTurnStart ≥ timedMidGame.TurnTimeLimit ∧
      (MatchLoop 200 5 (some timedMidGame) [move "alice" 0 2]).1.TicTacToe =
        timedMidGame.TicTacToe :=
  ⟨by decide, by decide, by decide, by decide, by decide, by decide,
    (expired_tick_applies_no_move 200 5 timedMidGame [move "alice" 0 2] (by decide) (by decide)
      (by decide) (by decide) (by decide) (by decide)).2.1⟩

theorem leaderboard_record_by_mode_witness :
    (∃ record, Event.leaderboardWrite record ∈
        (MatchLoop 200 5 (some timedMidGame) []).2 ∧ record.score = 2) ∧
      ∃ record, Event.leaderboardWrite record ∈
        (MatchLoop 105 5 (some midGame) [move "alice" 0 2]).2 ∧ record.score = 1 :=
  ⟨⟨writeToLeaderboard "bob" "O" (MatchLoop 200 5 (some timedMidGame) []).1,
      List.mem_cons_of_mem _ (List.mem_singleton.mpr rfl),
      ((leaderboard_record_by_mode "" "" timedMidGame).2.2.2.2.2 200 5 []
        (writeToLeaderboard "bob" "O" (MatchLoop 200 5 (some timedMidGame) []).1)
        (List.mem_cons_of_mem _ (List.mem_singleton.mpr rfl))).2.2⟩,
    ⟨writeToLeaderboard "alice" "X" (MatchLoop 105 5 (some midGame) [move "alice" 0 2]).1,
      List.mem_cons_of_mem _ (List.mem_singleton.mpr rfl),
      ((leaderboard_record_by_mode "" "" midGame).2.2.2.2.2 105 5 [move "alice" 0 2]
        (writeToLeaderboard "alice" "X" (MatchLoop 105 5 (some midGame) [move "alice" 0 2]).1)
        (List.mem_cons_of_mem _ (List.mem_singleton.mpr rfl))).2.2⟩⟩

theorem init_mode_and_state_witness :
    timedParams "game_mode" = some (ParamValue.str "timed") ∧
      (MatchInit NewMatch timedParams).1.GameMode = "timed" ∧
      ((fun _ => none : StrMap ParamValue) "game_mode" = none ∨
        (fun _ => none : StrMap ParamValue) "game_mode" = some ParamValue.other) ∧
      (MatchInit NewMatch (fun _ => none)).1.GameMode = NewMatch.gameMode :=
  ⟨rfl, (init_mode_and_state NewMatch timedParams).1 "timed" rfl,
    Or.inl rfl, (init_mode_and_state NewMatch (fun _ => none)).2.1 (Or.inl rfl)⟩

theorem out_of_bounds_rejected_witness :
    (move "alice" (-1) 3).action = some ⟨-1, 3⟩ ∧
      ((-1 : Int) < 0 ∨ (-1 : Int) > 2 ∨ (3 : Int) < 0 ∨ (3 : Int) > 2) ∧
      (processMessage 105 midGame (move "alice" (-1) 3)).events =
        [Event.error (findPresence midGame.Players "alice") "Out of bounds move"] :=
  ⟨rfl, by decide,
    (out_of_bounds_rejected 105 midGame (move "alice" (-1) 3) ⟨-1, 3⟩ rfl (by decide)).1⟩

theorem leave_removes_first_entries_witness :
    (midGame.Players.map Presence.userId).Nodup ∧
      (MatchLeave (some midGame) [alice]).1.Players = [bob] :=
  ⟨by decide,
    ((leave_removes_first_entries midGame [alice]).2.2.2.2.2.2 (by decide)).1.trans
      (by decide)⟩

theorem join_two_players_witness :
    alice.userId ≠ bob.userId ∧ alice.userId ≠ "" ∧
      JoinedTwo (MatchInit NewMatch timedParams).1
        (MatchJoin 100 (some (MatchInit NewMatch timedParams).1) [alice, bob]).1 alice bob 100 :=
  ⟨by decide, by decide,
    (join_two_players NewMatch timedParams 100 101 alice bob (by decide) (by decide)).1⟩

theorem turn_switch_after_move_witness :
    Accepted midGame (move "alice" 2 2) ⟨2, 2⟩ (by decide) ∧
      ¬ EightLines (boardAfter midGame (move "alice" 2 2) ⟨2, 2⟩ (by decide))
        (symbolOf midGame "alice") ∧
      (∃ i, boardAfter midGame (move "alice" 2 2) ⟨2, 2⟩ (by decide) i = "") ∧
      (processMessage 105 midGame (move "alice" 2 2)).returned = false :=
  ⟨by decide, by unfold EightLines; decide, by decide,
    (turn_switch_after_move 105 midGame (move "alice" 2 2) ⟨2, 2⟩ (by decide) (by decide)
      (by unfold EightLines; decide) (by decide)).1⟩

theorem time_remaining_unclamped_witness :
    timedMidGame.GameMode = GameModeTimed ∧ timedMidGame.GameEnded = false ∧
      timedMidGame.CurrentTurnStart > 0 ∧
      (MatchLoop 110 5 (some timedMidGame) [move "alice" 2 2]).1.TimeRemaining =
        (MatchLoop 110 5 (some timedMidGame) [move "alice" 2 2]).1.CurrentTurnStart +
          (MatchLoop 110 5 (some timedMidGame) [move "alice" 2 2]).1.TurnTimeLimit - 110 :=
  ⟨by decide, by decide, by decide,
    (time_remaining_unclamped 110 5 timedMidGame [move "alice" 2 2] (by decide) (by decide)
      (by decide)).1⟩

theorem move_before_join_wins_witness :
    ¬ ((1 : Int) < 0 ∨ (1 : Int) > 2 ∨ (1 : Int) < 0 ∨ (1 : Int) > 2) ∧
      (MatchLoop 50 3 (some (MatchInit NewMatch (fun _ => none)).1)
        [⟨"zed", "row 1 col 1", some ⟨1, 1⟩⟩]).1.Winner = "zed" ∧
      ∀ i, (MatchLoop 50 3 (some (MatchInit NewMatch (fun _ => none)).1)
        [⟨"zed", "row 1 col 1", some ⟨1, 1⟩⟩]).1.TicTacToe i = "" :=
  ⟨by decide,
    (move_before_join_wins NewMatch (fun _ => none) 50 3 "zed" "row 1 col 1" ⟨1, 1⟩
      (by decide)).2.2.2.2.2.2.2.1,
    (move_before_join_wins NewMatch (fun _ => none) 50 3 "zed" "row 1 col 1" ⟨1, 1⟩
      (by decide)).2.2.2.2.2.2.2.2.1⟩

/-! ## Draw and turn switch on states a defect leads to -/

/-- C2, evaluated: in the timed match `playedOn`, reached from `MatchInit`,
bob has won by timeout (`GameEnded` set, `Winner = "bob"`) and the message loop
has kept accepting moves; alice's move into the last empty cell is accepted and
fills the board without a line, the tick broadcasts the draw-result as its only
effect, and the state it returns still names bob as winner. -/
theorem draw_reported_with_winner :
    Reachable playedOn ∧ playedOn.GameEnded = true ∧ playedOn.Winner = "bob" ∧
      Accepted playedOn (move "alice" 2 2) ⟨2, 2⟩ (by decide) ∧
      (∀ i, boardAfter playedOn (move "alice" 2 2) ⟨2, 2⟩ (by decide) i ≠ "") ∧
      NoLine (boardAfter playedOn (move "alice" 2 2) ⟨2, 2⟩ (by decide)) ∧
      (MatchLoop 205 10 (some playedOn) [move "alice" 2 2]).2.map Event.opcode = [7] ∧
      (MatchLoop 205 10 (some playedOn) [move "alice" 2 2]).1.GameEnded = true ∧
      (MatchLoop 205 10 (some playedOn) [move "alice" 2 2]).1.Winner = "bob" ∧
      (MatchLoop 205 10 (some playedOn) [move "alice" 2 2]).1.Winner ≠ "" :=
  ⟨⟨NewMatchWithMode GameModeTimed, fun _ => none, playOnOps, rfl⟩,
    by decide, by decide, by decide, by decide, by decide, by decide, by decide, by decide,
    by decide⟩

/-- C19, evaluated: in the match alice joined twice the roster has exactly two
entries, both with her id. Her move into cell 0 is accepted and ends neither in
a win nor in a draw, the loop goes on with a board update, and `CurrentTurn`
is still "alice", the sender: no roster member has another id, so the turn is
not handed over. -/
theorem turn_stays_with_sender :
    Reachable joinedTwice ∧ joinedTwice.Players.length = 2 ∧
      joinedTwice.CurrentTurn = "alice" ∧
      Accepted joinedTwice (move "alice" 0 0) ⟨0, 0⟩ (by decide) ∧
      ¬ checkWin gameWin (boardAfter joinedTwice (move "alice" 0 0) ⟨0, 0⟩ (by decide))
        (symbolOf joinedTwice "alice") = true ∧
      (∃ i, boardAfter joinedTwice (move "alice" 0 0) ⟨0, 0⟩ (by decide) i = "") ∧
      (processMessage 102 joinedTwice (move "alice" 0 0)).returned = false ∧
      (processMessage 102 joinedTwice (move "alice" 0 0)).events.map Event.opcode = [4] ∧
      (processMessage 102 joinedTwice (move "alice" 0 0)).state.TicTacToe 0 = "X" ∧
      (processMessage 102 joinedTwice (move "alice" 0 0)).state.CurrentTurn = "alice" ∧
      ∀ p ∈ (processMessage 102 joinedTwice (move "alice" 0 0)).state.Players,
        p.userId = (move "alice" 0 0).userId :=
  ⟨⟨NewMatch, fun _ => none, _, rfl⟩, by decide, by decide, by decide, by decide, by decide,
    by decide, by decide, by decide, by decide, by decide⟩

end GameServer
